import Mathlib

set_option maxRecDepth 10000

/-!
Verification of the wbpf-userspace linker (datenlord/wbpf-userspace) against its
natural-language specification.

The development shallowly embeds the Rust linker sources
(`src/wbpf/src/linker/local_linker.rs` and `src/wbpf/src/linker/global_linker.rs`)
as executable Lean definitions and proves properties about them.  Machine
integers are modelled as `Nat`/`Int` with explicit `% 2^w` wrapping at the
points where the Rust code performs fixed-width arithmetic or casts.  Fallible
Rust code (`anyhow::Result`) is modelled with an `Outcome` type that also has a
`panic` constructor for the places where the Rust code can panic (slice
indexing, `unwrap`, `assert!`, out-of-bounds bit-set access inside the
`petgraph` DFS).

The instruction codec (`linker/ebpf.rs`) and the relocation constants
(`linker/consts.rs`) are declared by `linker/mod.rs` but their sources are
missing from the repository snapshot; those few definitions are modelled from
the specification (§3, §4.1) and carry a `Modelled from the spec:` note.
-/

/-- Outcome of running a piece of linker code: a success value, a recoverable
`anyhow` error carrying a message, or a Rust panic. -/
inductive Outcome (α : Type) where
  | panic : Outcome α
  | err : String → Outcome α
  | ok : α → Outcome α
deriving DecidableEq, Repr

namespace Outcome

def bind {α β : Type} : Outcome α → (α → Outcome β) → Outcome β
  | .panic, _ => .panic
  | .err e, _ => .err e
  | .ok a, f => f a

def isErr {α : Type} : Outcome α → Bool
  | .err _ => true
  | _ => false

def isOk {α : Type} : Outcome α → Bool
  | .ok _ => true
  | _ => false

end Outcome

instance : Monad Outcome where
  pure := Outcome.ok
  bind := Outcome.bind

/-- Low 16 bits of an integer in two's complement (the byte pattern of an
`i16` field). -/
def u16bits (x : Int) : Nat := (x % (65536 : Int)).toNat

/-- Low 32 bits of an integer in two's complement (the byte pattern of an
`i32` field, and the result of Rust's `as u32` on an `i32`). -/
def u32bits (x : Int) : Nat := (x % (4294967296 : Int)).toNat

/-- Full 64-bit two's complement pattern of an integer; for `x` in `i32`
range this is exactly Rust's sign-extending `x as u64` cast. -/
def u64bits (x : Int) : Nat := (x % (18446744073709551616 : Int)).toNat

/-- Reinterpret the low 32 bits of a natural number as a signed `i32`
(Rust's `as i32` on an unsigned value). -/
def natToI32 (n : Nat) : Int :=
  if n % 4294967296 < 2147483648 then ((n % 4294967296 : Nat) : Int)
  else ((n % 4294967296 : Nat) : Int) - 4294967296

/-- Value test for Rust's `i16::try_from`: does `x` fit in a signed 16-bit
integer? -/
def i16fits (x : Int) : Bool := (-32768 ≤ x) && (x ≤ 32767)

/-! ## Instruction model

Modelled from the spec: §3 "Instruction" and §4.1 "Instruction codec"
(`linker/ebpf.rs` is declared by `linker/mod.rs` but its source is not in the
provided tree).  An instruction is an 8-byte record: opcode (u8), regs byte
(dst in the low 4 bits, src in the high 4 bits), a little-endian signed 16-bit
`off` and a little-endian signed 32-bit `imm`. -/
structure Insn where
  opc : Nat
  dst : Nat
  src : Nat
  off : Int
  imm : Int
deriving DecidableEq, Repr

/-- Modelled from the spec: `Insn::to_array` of `linker/ebpf.rs` — the 8-byte
little-endian encoding described in §4.1 (dst is the low 4 bits of byte 1,
src the high 4 bits; `off` and `imm` are little-endian signed). -/
def encodeInsn (i : Insn) : List Nat :=
  let o := u16bits i.off
  let m := u32bits i.imm
  [i.opc % 256, (i.dst % 16) + 16 * (i.src % 16),
   o % 256, o / 256,
   m % 256, m / 256 % 256, m / 65536 % 256, m / 16777216 % 256]

/-! Opcode constants.  Modelled from the spec: §4.1 and §3 name the opcodes
used by the linker (`linker/ebpf.rs` is not in the provided tree); the
numeric values are the standard eBPF encodings, with `EXIT = 0x95` and
`LD_DW_IMM = 0x18` fixed explicitly by §3 and the opcode classes fixed by
§4.1. -/
def BPF_LD : Nat := 0x00

def BPF_LDX : Nat := 0x01

def BPF_ST : Nat := 0x02

def BPF_STX : Nat := 0x03

def JA : Nat := 0x05

def ADD64_IMM : Nat := 0x07

def SUB64_IMM : Nat := 0x17

def LD_DW_IMM : Nat := 0x18

def LD_DW_REG : Nat := 0x79

def ST_DW_REG : Nat := 0x7b

def CALL : Nat := 0x85

def EXIT : Nat := 0x95

def MOV32_IMM : Nat := 0xb4

def MOV64_IMM : Nat := 0xb7

/-- Modelled from the spec: relocation type constants of `linker/consts.rs`
(§6: `R_BPF_64_64` = 1, `R_BPF_64_32` = 10). -/
def R_BPF_64_64 : Nat := 1

/-- Modelled from the spec: see `R_BPF_64_64`. -/
def R_BPF_64_32 : Nat := 10

/-- ELF symbol binding `STB_LOCAL` (goblin's `elf64::sym::STB_LOCAL`). -/
def STB_LOCAL : Nat := 0

/-- ELF section type `SHT_PROGBITS` (goblin's constant). -/
def SHT_PROGBITS : Nat := 1

/-- ELF section flag `SHF_ALLOC` (goblin's constant). -/
def SHF_ALLOC : Nat := 2

/-- ELF section flag `SHF_EXECINSTR` (goblin's constant). -/
def SHF_EXECINSTR : Nat := 4

/-- Opcode class, `opc & 0b111` (local_linker.rs line 194). -/
def opClass (i : Insn) : Nat := i.opc % 8

/-- The `AnnotatedInsn` record of local_linker.rs (lines 51-56): an
instruction plus its byte offset within the source function (−1 for
synthetic instructions) and the resolved call target, if any. -/
structure AnnotatedInsn where
  insn : Insn
  original_offset : Int
  call_target_function : Option (Nat × Nat)
deriving DecidableEq, Repr

/-- The `Function` record of local_linker.rs (lines 38-49).  `raw_code` is
omitted: the linker never reads it after construction. -/
structure Function where
  name : String
  section_index : Nat
  offset : Nat
  end_offset : Nat
  code : List AnnotatedInsn
  global : Bool
  stack_usage : Nat
  global_linked_offset : Nat
deriving DecidableEq, Repr

/-! ## Local linker: calculate_stack_usage (local_linker.rs lines 190-226) -/

/-- The per-function instruction walk of `calculate_stack_usage`
(local_linker.rs lines 192-216), threading the running `stack_usage`
accumulator.  The final `else` branch with `src == 10` performs
`stack_usage.max(512)` and breaks out of the walk. -/
def stackUsageLoop : List AnnotatedInsn → Nat → Nat
  | [], acc => acc
  | a :: rest, acc =>
    let c := opClass a.insn
    if c = BPF_ST ∨ c = BPF_STX then
      if a.insn.dst = 10 then
        if 0 ≤ a.insn.off then stackUsageLoop rest acc
        else stackUsageLoop rest (Nat.max ((-a.insn.off).toNat) acc)
      else stackUsageLoop rest acc
    else if c = BPF_LD ∨ c = BPF_LDX then stackUsageLoop rest acc
    else if a.insn.src = 10 then Nat.max acc 512
    else stackUsageLoop rest acc

/-- The `calculate_stack_usage` pass of local_linker.rs (lines 190-226):
each function's `stack_usage` is set to the result of the instruction
walk started with accumulator 0. -/
def calculate_stack_usage (fns : List (String × Function)) : List (String × Function) :=
  fns.map (fun p => (p.1, { p.2 with stack_usage := stackUsageLoop p.2.code 0 }))

/-- Claim-side definition (C5 wording): contribution of one instruction to
the stack accounting — `−offset` for an ST/STX-class store to `dst == 10`
with a negative offset, nothing otherwise (a non-negative stack offset is
only warned about). -/
def storeContrib (a : AnnotatedInsn) : Nat :=
  if (opClass a.insn = BPF_ST ∨ opClass a.insn = BPF_STX) ∧ a.insn.dst = 10 ∧ a.insn.off < 0
  then (-a.insn.off).toNat else 0

/-- Claim-side definition (C5 wording): an instruction whose opcode class is
neither load nor store (classes 0-3) and whose `src` register is 10 — the
stack pointer "escapes" and the walk stops. -/
def escapesStack (a : AnnotatedInsn) : Bool :=
  (4 ≤ opClass a.insn) && (a.insn.src == 10)

/-- Claim-side definition (C5 wording): the stack usage the claim predicts —
the maximum of `−offset` over qualifying stores walked in order, where an
escaping use of r10 conservatively raises the result to at least 512 and
stops the walk. -/
def specStackUsage : List AnnotatedInsn → Nat
  | [] => 0
  | a :: rest =>
    if escapesStack a then 512
    else Nat.max (storeContrib a) (specStackUsage rest)

/-! ## Local linker: patch_callee_saved_regs (local_linker.rs lines 228-311) -/

/-- A synthetic `ST_DW_REG` spill of callee-saved register `reg` at offset
`8·count` off r10 (local_linker.rs lines 251-261). -/
def stSaveInsn (reg count : Nat) : AnnotatedInsn :=
  ⟨⟨ST_DW_REG, 10, reg, ((count * 8 : Nat) : Int), 0⟩, -1, none⟩

/-- A synthetic `LD_DW_REG` reload of callee-saved register `reg` from offset
`8·count` off r10 (local_linker.rs lines 262-272). -/
def ldRestoreInsn (reg count : Nat) : AnnotatedInsn :=
  ⟨⟨LD_DW_REG, reg, 10, ((count * 8 : Nat) : Int), 0⟩, -1, none⟩

/-- The `need_save` array of local_linker.rs lines 230-243: flag `i` is set
iff some instruction's `dst` register equals `i + 6`. -/
def needSaveList (code : List AnnotatedInsn) : List Bool :=
  [code.any (fun a => a.insn.dst == 6), code.any (fun a => a.insn.dst == 7),
   code.any (fun a => a.insn.dst == 8), code.any (fun a => a.insn.dst == 9)]

/-- The prologue/epilogue accumulation loop of local_linker.rs lines 245-275:
walk the (index, flag) pairs, and for each set flag append a spill to
`prepend`, a reload to `append` and bump `count`. -/
def patchAccum : List (Nat × Bool) → (Nat × List AnnotatedInsn × List AnnotatedInsn) →
    (Nat × List AnnotatedInsn × List AnnotatedInsn)
  | [], st => st
  | (i, b) :: rest, (count, pre, app) =>
    if b then
      patchAccum rest (count + 1, pre ++ [stSaveInsn (i + 6) count], app ++ [ldRestoreInsn (i + 6) count])
    else patchAccum rest (count, pre, app)

/-- The synthetic `SUB64_IMM r10, count*8` prologue head (local_linker.rs
lines 280-290). -/
def subFrameInsn (count : Nat) : AnnotatedInsn :=
  ⟨⟨SUB64_IMM, 10, 0, 0, ((count * 8 : Nat) : Int)⟩, -1, none⟩

/-- The synthetic `ADD64_IMM r10, count*8` epilogue restore (local_linker.rs
lines 294-304). -/
def addFrameInsn (count : Nat) : AnnotatedInsn :=
  ⟨⟨ADD64_IMM, 10, 0, 0, ((count * 8 : Nat) : Int)⟩, -1, none⟩

/-- The per-function body of `patch_callee_saved_regs` (local_linker.rs
lines 229-307): skip functions not ending in `EXIT`; otherwise pop the
trailing `EXIT`, wrap the body in the spill/reload sequence and push the
`EXIT` back.  Functions needing no saves (`count == 0`) are untouched. -/
def patchFn (f : Function) : Function :=
  match f.code.getLast? with
  | none => f
  | some lastI =>
    if lastI.insn.opc ≠ EXIT then f
    else
      let st := patchAccum (needSaveList f.code).enum (0, [], [])
      if st.1 = 0 then f
      else
        { f with
          code := subFrameInsn st.1 :: (st.2.1 ++ f.code.dropLast ++ st.2.2
                    ++ [addFrameInsn st.1, lastI]) }

/-- The `patch_callee_saved_regs` pass over an object's function table
(local_linker.rs lines 228-311). -/
def patch_callee_saved_regs (fns : List (String × Function)) : List (String × Function) :=
  fns.map (fun p => (p.1, patchFn p.2))

/-- Claim-side definition (C4 wording): the distinct callee-saved registers
(indices 0-3 standing for r6-r9) used as a destination anywhere in the
body. -/
def savedRegIndices (code : List AnnotatedInsn) : List Nat :=
  (List.range 4).filter (fun i => code.any (fun a => a.insn.dst == i + 6))

/-! ## Association-list models of the map types

`FnvIndexMap` (indexmap's `IndexMap`) is modelled as an association list in
insertion order; `insert` overwrites the value of an existing key in place and
otherwise appends, `remove` is indexmap's `swap_remove` (move the last entry
into the removed slot).  `FnvHashMap` is only ever used for point lookups in
the linker, never iterated, so the same model is adequate for it. -/
def lookupKV {κ α : Type} [DecidableEq κ] : List (κ × α) → κ → Option α
  | [], _ => none
  | (k', v) :: rest, k => if k' = k then some v else lookupKV rest k

def insertIdx {κ α : Type} [DecidableEq κ] : List (κ × α) → κ → α → List (κ × α)
  | [], k, v => [(k, v)]
  | (k', v') :: rest, k, v =>
    if k' = k then (k, v) :: rest else (k', v') :: insertIdx rest k v

def swapRemoveKV {κ α : Type} [DecidableEq κ] (m : List (κ × α)) (k : κ) :
    Option (α × List (κ × α)) :=
  match m.findIdx? (fun p => p.1 == k) with
  | none => none
  | some i =>
    match m[i]?, m.getLast? with
    | some p, some lastP => some (p.2, (m.set i lastP).dropLast)
    | _, _ => none

def updateEntry {κ α : Type} [DecidableEq κ] (m : List (κ × α)) (k : κ) (dflt : α)
    (f : α → α) : List (κ × α) :=
  if (lookupKV m k).isSome then m.map (fun p => if p.1 = k then (k, f p.2) else p)
  else m ++ [(k, f dflt)]

/-! ## ELF-side input model

The parsed ELF data the global linker reads from each `LocalObject`: sections
(type, flags and the resolved `file_range` slice of the raw bytes — `none`
models a missing or out-of-bounds file range), symbols (name resolved through
the string table, binding, section index, value and goblin's `is_import`
flag), the per-object function table, and the relocation map keyed by
`(function_index, offset_in_function)` (local_linker.rs lines 30-36). -/
structure SectionModel where
  shType : Nat
  shFlags : Nat
  bytes : Option (List Nat)
deriving DecidableEq, Repr

structure SymModel where
  name : String
  stBind : Nat
  stShndx : Nat
  stValue : Nat
  isImport : Bool
deriving DecidableEq, Repr

structure RelocModel where
  rSym : Nat
  rType : Nat
deriving DecidableEq, Repr

structure ObjectModel where
  name : String
  sections : List SectionModel
  syms : List SymModel
  functions : List (String × Function)
  reloc : List ((Nat × Nat) × RelocModel)
deriving DecidableEq, Repr

/-- The `HostPlatform` descriptor (image model): `data_offset` and the helper
name→index table. -/
structure HostPlatform where
  data_offset : Nat
  helpers : List (String × Int)
deriving DecidableEq, Repr

/-- The `TargetMachine` descriptor: only its helper table is read by the
linker. -/
structure TargetMachine where
  helpers : List (String × Int)
deriving DecidableEq, Repr

/-- The `GlobalLinkerConfig` of global_linker.rs lines 32-37. -/
structure GlobalLinkerConfig where
  target_machine : TargetMachine
  host_platform : HostPlatform
  dce_roots : Option (List String)
deriving DecidableEq, Repr

/-- The parts of the emitted `Image` the claims are about: code bytes, data
bytes and the function offset table. -/
structure Image where
  code : List Nat
  data : List Nat
  func_offsets : List (String × Int)
deriving DecidableEq, Repr

/-! ## Global linker phase a: emit_data (global_linker.rs lines 142-167) -/

/-- The section scan of `emit_data`: for each PROGBITS+ALLOC+non-EXECINSTR
section append its bytes to the data image and record
`(object_index, section_index) ↦ previous_data_len + host_platform.data_offset`
(u32 arithmetic). -/
def emitDataSections (dataOffsetCfg oi : Nat) :
    Nat → List SectionModel → List Nat → List ((Nat × Nat) × Nat) →
    Outcome (List Nat × List ((Nat × Nat) × Nat))
  | _, [], img, dso => .ok (img, dso)
  | si, s :: rest, img, dso =>
    if s.shType = SHT_PROGBITS ∧ Nat.land s.shFlags SHF_ALLOC ≠ 0
        ∧ Nat.land s.shFlags SHF_EXECINSTR = 0 then
      match s.bytes with
      | none => .err "missing file range"
      | some bs =>
        emitDataSections dataOffsetCfg oi (si + 1) rest (img ++ bs)
          (insertIdx dso (oi, si) ((img.length + dataOffsetCfg) % 4294967296))
    else emitDataSections dataOffsetCfg oi (si + 1) rest img dso

/-- Phase `emit_data` over all objects in order. -/
def emit_data (dataOffsetCfg : Nat) :
    Nat → List ObjectModel → List Nat → List ((Nat × Nat) × Nat) →
    Outcome (List Nat × List ((Nat × Nat) × Nat))
  | _, [], img, dso => .ok (img, dso)
  | oi, obj :: rest, img, dso =>
    (emitDataSections dataOffsetCfg oi 0 obj.sections img dso).bind
      (fun st => emit_data dataOffsetCfg (oi + 1) rest st.1 st.2)

/-! ## Global linker phase b: populate_all_functions (lines 120-140) -/

/-- Inner loop of `populate_all_functions`: add each function of one object
under its bare name if global, else under `object_name:function_name`;
a duplicate key is a fatal multiple-definition error. -/
def populateObjFns (objName : String) (oi : Nat) :
    Nat → List (String × Function) → List (String × (Nat × Nat)) →
    Outcome (List (String × (Nat × Nat)))
  | _, [], acc => .ok acc
  | fi, (fname, func) :: rest, acc =>
    let key := if func.global then fname else objName ++ ":" ++ fname
    if (lookupKV acc key).isSome then .err "multiple definitions of function"
    else populateObjFns objName oi (fi + 1) rest (acc ++ [(key, (oi, fi))])

/-- Phase `populate_all_functions` over all objects in order. -/
def populate_all_functions :
    Nat → List ObjectModel → List (String × (Nat × Nat)) →
    Outcome (List (String × (Nat × Nat)))
  | _, [], acc => .ok acc
  | oi, obj :: rest, acc =>
    (populateObjFns obj.name oi 0 obj.functions acc).bind
      (populate_all_functions (oi + 1) rest)

/-! ## Global linker phase c: resolve_pseudo_calls (lines 223-329) -/

/-- Build the `(obj_index, section_index) → (offset → (name, func_index))`
lookup table of global_linker.rs lines 224-233. -/
def buildFunctionMap (objects : List ObjectModel) :
    List (String × (Nat × Nat)) → List ((Nat × Nat) × List (Nat × (String × Nat))) →
    Outcome (List ((Nat × Nat) × List (Nat × (String × Nat))))
  | [], acc => .ok acc
  | (name, (oi, fi)) :: rest, acc =>
    match objects[oi]? with
    | none => .panic
    | some obj =>
      match obj.functions[fi]?  with
      | none => .panic
      | some (_, func) =>
        buildFunctionMap objects rest
          (updateEntry acc (oi, func.section_index) []
            (fun inner => insertIdx inner func.offset (name, fi)))

/-- Resolution of one relocated pseudo-call through its symbol
(global_linker.rs lines 247-296): look the symbol's bare name up in the
merged function table, then `object_name:symbol_name`; on a hit record the
call edge.  Otherwise, if the symbol is an import, consult
`host_platform.helpers` then `target_machine.helpers` and rewrite the
instruction to `imm := helper_index`, `src := 0`.  If everything misses the
pseudo-call is a fatal error. -/
def resolvePseudoCallSym (allFunctions : List (String × (Nat × Nat))) (objectName : String)
    (hostHelpers targetHelpers : List (String × Int)) (sym : SymModel) (a : AnnotatedInsn) :
    Outcome AnnotatedInsn :=
  match (lookupKV allFunctions sym.name).orElse
      (fun _ => lookupKV allFunctions (objectName ++ ":" ++ sym.name)) with
  | some t => .ok { a with call_target_function := some t }
  | none =>
    if sym.isImport then
      match (lookupKV hostHelpers sym.name).orElse (fun _ => lookupKV targetHelpers sym.name) with
      | some h => .ok { a with insn := { a.insn with imm := h, src := 0 } }
      | none => .err "unresolved pseudo call"
    else .err "unresolved pseudo call"

/-- Per-instruction body of the `resolve_pseudo_calls` loop (lines 241-325).
Only `CALL` instructions with `src == 1` are touched.  If a relocation is
registered at this instruction's original offset it is removed from the map
and resolved through `resolvePseudoCallSym`; otherwise the call is an
in-section relative call: `assert!(original_offset >= 0)` (a panic when
violated), compute the target offset with wrapping i32 arithmetic and look it
up among the function starts of this `(object, section)`. -/
def resolvePseudoInsn (hostHelpers targetHelpers : List (String × Int))
    (allFunctions : List (String × (Nat × Nat)))
    (functionMap : List ((Nat × Nat) × List (Nat × (String × Nat))))
    (oi fi : Nat) (objName : String) (syms : List SymModel) (funcOffset funcSection : Nat)
    (a : AnnotatedInsn) (reloc : List ((Nat × Nat) × RelocModel)) :
    Outcome (AnnotatedInsn × List ((Nat × Nat) × RelocModel)) :=
  if a.insn.opc = CALL ∧ a.insn.src = 1 then
    match swapRemoveKV reloc (fi, u64bits a.original_offset) with
    | some (r, reloc') =>
      match syms[r.rSym]? with
      | none => .err "invalid symbol index"
      | some sym =>
        (resolvePseudoCallSym allFunctions objName hostHelpers targetHelpers sym a).bind
          (fun a' => .ok (a', reloc'))
    | none =>
      if a.original_offset < 0 then .panic
      else
        let targetOffset : Nat :=
          u64bits (natToI32 (u32bits ((funcOffset : Int) + a.original_offset
            + (a.insn.imm + 1) * 8)))
        match lookupKV functionMap (oi, funcSection) with
        | none => .panic
        | some inner =>
          match lookupKV inner targetOffset with
          | none => .err "missing function at target offset"
          | some nfi => .ok ({ a with call_target_function := some (oi, nfi.2) }, reloc)
  else .ok (a, reloc)

/-- The instruction walk of `resolve_pseudo_calls` over one function's code,
threading the object's relocation map. -/
def resolvePseudoCode (hostHelpers targetHelpers : List (String × Int))
    (allFunctions : List (String × (Nat × Nat)))
    (functionMap : List ((Nat × Nat) × List (Nat × (String × Nat))))
    (oi fi : Nat) (objName : String) (syms : List SymModel) (funcOffset funcSection : Nat) :
    List AnnotatedInsn → List ((Nat × Nat) × RelocModel) →
    Outcome (List AnnotatedInsn × List ((Nat × Nat) × RelocModel))
  | [], reloc => .ok ([], reloc)
  | a :: rest, reloc =>
    (resolvePseudoInsn hostHelpers targetHelpers allFunctions functionMap oi fi objName syms
        funcOffset funcSection a reloc).bind
      (fun st =>
        (resolvePseudoCode hostHelpers targetHelpers allFunctions functionMap oi fi objName syms
            funcOffset funcSection rest st.2).bind
          (fun st' => .ok (st.1 :: st'.1, st'.2)))

/-- The outer loop of `resolve_pseudo_calls` over the merged function table's
values, threading the mutated objects. -/
def resolvePseudoFold (hostHelpers targetHelpers : List (String × Int))
    (allFunctions : List (String × (Nat × Nat)))
    (functionMap : List ((Nat × Nat) × List (Nat × (String × Nat)))) :
    List (String × (Nat × Nat)) → List ObjectModel → Outcome (List ObjectModel)
  | [], objects => .ok objects
  | (_, (oi, fi)) :: rest, objects =>
    match objects[oi]? with
    | none => .panic
    | some obj =>
      match obj.functions[fi]?  with
      | none => .panic
      | some (fname, func) =>
        (resolvePseudoCode hostHelpers targetHelpers allFunctions functionMap oi fi obj.name
            obj.syms func.offset func.section_index func.code obj.reloc).bind
          (fun st =>
            let func' := { func with code := st.1 }
            let obj' := { obj with
                          functions := obj.functions.set fi (fname, func')
                          reloc := st.2 }
            resolvePseudoFold hostHelpers targetHelpers allFunctions functionMap rest
              (objects.set oi obj'))

/-- Phase `resolve_pseudo_calls` (global_linker.rs lines 223-329). -/
def resolve_pseudo_calls (hostHelpers targetHelpers : List (String × Int))
    (allFunctions : List (String × (Nat × Nat))) (objects : List ObjectModel) :
    Outcome (List ObjectModel) :=
  (buildFunctionMap objects allFunctions []).bind
    (fun fm => resolvePseudoFold hostHelpers targetHelpers allFunctions fm allFunctions objects)

/-! ## Global linker phase d: resolve_generic_relocs (lines 169-221) -/

/-- Update the `imm` field of instruction `i` in a code list (the in-place
`func.code[i].insn.imm = v` assignments of lines 196-201). -/
def updImm (code : List AnnotatedInsn) (i : Nat) (v : Int) : List AnnotatedInsn :=
  match code[i]? with
  | none => code
  | some a => code.set i { a with insn := { a.insn with imm := v } }

/-- The 64-bit combine of global_linker.rs lines 193-194:
`(imm_lo as u64) | ((imm_hi as u64) << 32)`.  Note the `as u64` on the low
word sign-extends, so a negative `imm_lo` forces the high 32 bits of the
result to all-ones. -/
def combine64sx (lo hi : Int) : Nat :=
  Nat.lor (u64bits lo) ((u64bits hi * 4294967296) % 18446744073709551616)

/-- Claim-side definition (C3 wording): the 64-bit value "formed from the two
consecutive instruction words' immediates" — the plain concatenation of the
two 32-bit patterns, low word from the first instruction, high word from the
second. -/
def combine64zx (lo hi : Int) : Nat :=
  u32bits lo + u32bits hi * 4294967296

/-- The instruction-patching part of one `resolve_generic_relocs` iteration
(global_linker.rs lines 190-209), factored over the target function's code:
patch the immediate of the instruction at index `i0 = offset_in_func / 8`
(for `R_BPF_64_64` also the one at `i0 + 1`) with the relocated address
`thisOffset`.  The instruction indexing has no bounds check: an out-of-range
index is a panic, not an error. -/
def applyRelocToCode (rType thisOffset : Nat) (code : List AnnotatedInsn) (i0 : Nat) :
    Outcome (List AnnotatedInsn) :=
  if rType = R_BPF_64_64 then
    match code[i0]? with
    | none => .panic
    | some a0 =>
      match code[i0 + 1]? with
      | none => .panic
      | some a1 =>
        let value := (combine64sx a0.insn.imm a1.insn.imm + thisOffset)
          % 18446744073709551616
        .ok (updImm (updImm code i0 (natToI32 value)) (i0 + 1)
          (natToI32 (value / 4294967296)))
  else if rType = R_BPF_64_32 then
    match code[i0]? with
    | none => .panic
    | some a0 => .ok (updImm code i0 (natToI32 (u32bits a0.insn.imm + thisOffset)))
  else .err "unsupported relocation type"

/-- One iteration of the `resolve_generic_relocs` loop (global_linker.rs
lines 173-218): resolve the relocation's symbol (error on a non-local
binding), find the symbol section's data-image base
`thisOffset = data_base + st_value` (u32 arithmetic), and patch the target
function's code through `applyRelocToCode`. -/
def applyGenericReloc (dso : List ((Nat × Nat) × Nat)) (objectIndex : Nat)
    (syms : List SymModel) (functions : List (String × Function))
    (fiOff : Nat × Nat) (r : RelocModel) : Outcome (List (String × Function)) :=
  match syms[r.rSym]? with
  | none => .err "invalid symbol index"
  | some sym =>
    if sym.stBind ≠ STB_LOCAL then .err "non-local data relocation is not supported"
    else
      match lookupKV dso (objectIndex, sym.stShndx) with
      | none => .err "data offset not found"
      | some dataBase =>
        match functions[fiOff.1]? with
        | none => .panic
        | some nf =>
          (applyRelocToCode r.rType ((dataBase + sym.stValue) % 4294967296) nf.2.code
              (fiOff.2 / 8)).bind
            (fun code' => .ok (functions.set fiOff.1 (nf.1, { nf.2 with code := code' })))

/-- The relocation walk of `resolve_generic_relocs` over one object's
remaining relocation entries, in map order. -/
def relocFold (dso : List ((Nat × Nat) × Nat)) (objectIndex : Nat) (syms : List SymModel) :
    List ((Nat × Nat) × RelocModel) → List (String × Function) →
    Outcome (List (String × Function))
  | [], fns => .ok fns
  | (k, r) :: rest, fns =>
    (applyGenericReloc dso objectIndex syms fns k r).bind (relocFold dso objectIndex syms rest)

/-- Phase `resolve_generic_relocs` over all objects in order. -/
def resolve_generic_relocs (dso : List ((Nat × Nat) × Nat)) :
    Nat → List ObjectModel → Outcome (List ObjectModel)
  | _, [] => .ok []
  | oi, obj :: rest =>
    (relocFold dso oi obj.syms obj.reloc obj.functions).bind
      (fun fns' =>
        (resolve_generic_relocs dso (oi + 1) rest).bind
          (fun rest' => .ok ({ obj with functions := fns' } :: rest')))

/-! ## Global linker phase e: global_dce (global_linker.rs lines 528-578)

The call graph is petgraph's `DiGraph::from_edges`: the graph has
`max edge endpoint + 1` nodes (zero nodes for an empty edge list).  The DFS is
petgraph's `Dfs::from_parts(root_indices, g.visit_map())`: the visit map is a
`FixedBitSet` sized to the graph's node count, and visiting a node index
outside the bit set's length is a panic (fixedbitset's `put` asserts the
index is in bounds).  The DFS is modelled with explicit fuel; every pop either
panics, skips an already-visited node, or visits a new node and pushes at
most one entry per call edge, so `|roots| + |edges| + 1` fuel always
suffices and the fuel-exhausted branch is unreachable. -/
def fromEdgesNodeCount (edges : List (Nat × Nat)) : Nat :=
  edges.foldl (fun m e => Nat.max m (Nat.max e.1 e.2 + 1)) 0

def neighborsOf (edges : List (Nat × Nat)) (n : Nat) : List Nat :=
  (edges.filter (fun e => e.1 == n)).map (fun e => e.2)

def dfsLoop (edges : List (Nat × Nat)) (nodeCount : Nat) :
    Nat → List Nat → List Nat → Outcome (List Nat)
  | 0, _, _ => .panic
  | _ + 1, [], visited => .ok visited
  | fuel + 1, n :: stack, visited =>
    if nodeCount ≤ n then .panic
    else if visited.contains n then dfsLoop edges nodeCount fuel stack visited
    else
      dfsLoop edges nodeCount fuel
        (((neighborsOf edges n).filter (fun s => !((n :: visited).contains s))) ++ stack)
        (n :: visited)

/-- Build the call-edge list of `global_dce` (lines 547-556): one edge per
instruction with a resolved `call_target_function`, from the caller's position
in the merged table to the target's position (`fn_to_index[&target]` panics
when the target is not in the table). -/
def dceEdges (vals : List (Nat × Nat)) (objects : List ObjectModel) :
    Nat → List (Nat × Nat) → Outcome (List (Nat × Nat))
  | _, [] => .ok []
  | i, (oi, fi) :: rest =>
    match objects[oi]? with
    | none => .panic
    | some obj =>
      match obj.functions[fi]?  with
      | none => .panic
      | some (_, func) =>
        let step := func.code.foldl
          (fun (acc : Outcome (List (Nat × Nat))) a =>
            acc.bind (fun es =>
              match a.call_target_function with
              | none => .ok es
              | some t =>
                match vals.findIdx? (fun v => v == t) with
                | none => .panic
                | some j => .ok (es ++ [(i, j)])))
          (.ok [])
        step.bind (fun es =>
          (dceEdges vals objects (i + 1) rest).bind (fun es' => .ok (es ++ es')))

/-- Phase `global_dce`: compute the DFS-reachable set from the configured
roots (missing root names are silently skipped) and keep exactly the reached
functions, preserving their relative order. -/
def global_dce (roots : List String) (allFunctions : List (String × (Nat × Nat)))
    (objects : List ObjectModel) : Outcome (List (String × (Nat × Nat))) :=
  let rootIndices := (allFunctions.enum.filter (fun p => roots.contains p.2.1)).map
    (fun p => p.1)
  (dceEdges (allFunctions.map (fun p => p.2)) objects 0 (allFunctions.map (fun p => p.2))).bind
    (fun edges =>
      (dfsLoop edges (fromEdgesNodeCount edges) (rootIndices.length + edges.length + 1)
          rootIndices.reverse []).bind
        (fun visited =>
          .ok ((allFunctions.enum.filter (fun p => visited.contains p.1)).map (fun p => p.2))))

/-! ## Global linker phase f: emit_entry_trampoline (lines 331-433) -/

/-- The fixed 13-instruction entry trampoline of global_linker.rs
lines 332-427. -/
def trampolineInsns : List Insn :=
  [⟨MOV32_IMM, 10, 0, 0, 0⟩,
   ⟨LD_DW_REG, 0, 10, 0, 0⟩,
   ⟨LD_DW_REG, 1, 10, 8, 0⟩,
   ⟨LD_DW_REG, 2, 10, 16, 0⟩,
   ⟨LD_DW_REG, 3, 10, 24, 0⟩,
   ⟨LD_DW_REG, 4, 10, 32, 0⟩,
   ⟨LD_DW_REG, 5, 10, 40, 0⟩,
   ⟨LD_DW_REG, 6, 10, 48, 0⟩,
   ⟨LD_DW_REG, 7, 10, 56, 0⟩,
   ⟨LD_DW_REG, 8, 10, 64, 0⟩,
   ⟨LD_DW_REG, 9, 10, 72, 0⟩,
   ⟨ADD64_IMM, 10, 0, 0, 80⟩,
   ⟨JA, 0, 1, 0, 0⟩]

/-- Phase `emit_entry_trampoline`: extend the code image with the trampoline
bytes. -/
def emit_entry_trampoline (codeImage : List Nat) : List Nat :=
  codeImage ++ (trampolineInsns.map encodeInsn).flatten

/-! ## Global linker phase g: emit_code_image (lines 435-454) -/

/-- Phase `emit_code_image`: for each surviving function in merged-table
order, record `global_linked_offset := current code image length` and append
the function's instruction bytes. -/
def emit_code_image :
    List (String × (Nat × Nat)) → List ObjectModel → List Nat →
    Outcome (List ObjectModel × List Nat)
  | [], objects, img => .ok (objects, img)
  | (_, (oi, fi)) :: rest, objects, img =>
    match objects[oi]? with
    | none => .panic
    | some obj =>
      match obj.functions[fi]?  with
      | none => .panic
      | some (fname, func) =>
        let func' := { func with global_linked_offset := img.length }
        emit_code_image rest
          (objects.set oi { obj with functions := obj.functions.set fi (fname, func') })
          (img ++ (func'.code.map (fun a => encodeInsn a.insn)).flatten)

/-! ## Global linker phase h: rewrite_image_call_return (lines 456-526) -/
def writeBytes (img : List Nat) (off : Nat) (bs : List Nat) : List Nat :=
  img.take off ++ bs ++ img.drop (off + bs.length)

/-- Rust's `img[off..off+len].copy_from_slice(bs)`: panics when the range is
out of bounds. -/
def writeChecked (img : List Nat) (off : Nat) (bs : List Nat) : Outcome (List Nat) :=
  if off + bs.length ≤ img.length then .ok (writeBytes img off bs) else .panic

def sliceBytes (img : List Nat) (off len : Nat) : List Nat :=
  (img.drop off).take len

/-- The branch displacement of a rewritten call (line 477):
`(target_offset − this_offset) / 8 − 1` with Rust's truncating `i64`
division. -/
def callDiff (targetOffset thisOffset : Nat) : Int :=
  Int.tdiv ((targetOffset : Int) - (thisOffset : Int)) 8 - 1

/-- The `JA dst=0, src=2` call instruction of lines 487-493 with
`imm = −(caller stack_usage + 8)`. -/
def callJAInsn (stackUsage : Nat) (diff : Int) : Insn :=
  ⟨JA, 0, 2, diff, -((stackUsage : Int) + 8)⟩

/-- The `JA dst=0, src=1, off=0, imm=0` return instruction of lines 507-513. -/
def retJAInsn : Insn :=
  ⟨JA, 0, 1, 0, 0⟩

/-- The `func_to_offset` table of lines 457-465. -/
def funcOffsOf (survivors : List ((Nat × Nat) × Function)) : List ((Nat × Nat) × Nat) :=
  survivors.map (fun p => (p.1, p.2.global_linked_offset))

/-- One iteration of the instruction loop of `rewrite_image_call_return`
(lines 471-523): first, when the instruction has a resolved call target,
check the displacement against `i16` (a fatal error when out of range) and
overwrite this instruction's 8 bytes with the call `JA`; then, when the
opcode is `EXIT`, overwrite the same 8 bytes with the return `JA`. -/
def rewriteInsnStep (funcOffs : List ((Nat × Nat) × Nat)) (f : Function) (i : Nat)
    (a : AnnotatedInsn) (img : List Nat) : Outcome (List Nat) :=
  let thisOffset := f.global_linked_offset + i * 8
  let afterCall : Outcome (List Nat) :=
    match a.call_target_function with
    | none => .ok img
    | some t =>
      match lookupKV funcOffs t with
      | none => .panic
      | some toff =>
        if i16fits (callDiff toff thisOffset)
        then writeChecked img thisOffset (encodeInsn (callJAInsn f.stack_usage (callDiff toff thisOffset)))
        else .err "call target offset is too far away"
  afterCall.bind (fun img1 =>
    if a.insn.opc = EXIT then writeChecked img1 thisOffset (encodeInsn retJAInsn)
    else .ok img1)

/-- The instruction loop of `rewrite_image_call_return` over one function's
code, starting at instruction index `i`. -/
def rewriteFuncFrom (funcOffs : List ((Nat × Nat) × Nat)) (f : Function) :
    Nat → List AnnotatedInsn → List Nat → Outcome (List Nat)
  | _, [], img => .ok img
  | i, a :: rest, img =>
    (rewriteInsnStep funcOffs f i a img).bind (rewriteFuncFrom funcOffs f (i + 1) rest)

/-- The function loop of `rewrite_image_call_return`. -/
def rewriteAll (funcOffs : List ((Nat × Nat) × Nat)) :
    List ((Nat × Nat) × Function) → List Nat → Outcome (List Nat)
  | [], img => .ok img
  | (_, f) :: rest, img =>
    (rewriteFuncFrom funcOffs f 0 f.code img).bind (rewriteAll funcOffs rest)

/-- Phase `rewrite_image_call_return` over the surviving functions (each
listed with its `(object_index, function_index)` key). -/
def rewrite_image_call_return (survivors : List ((Nat × Nat) × Function))
    (img : List Nat) : Outcome (List Nat) :=
  rewriteAll (funcOffsOf survivors) survivors img

/-- Characterization of the final contents of one instruction's 8-byte slot
after the rewrite phase: `EXIT` instructions end up as the return `JA`
(this overwrite runs last, so it also wins for a hypothetical `EXIT` carrying
a call target); other instructions with a resolved call target end up as the
call `JA`; everything else keeps its bytes (`none`). -/
def slotBytesAfter (funcOffs : List ((Nat × Nat) × Nat)) (f : Function) (i : Nat)
    (a : AnnotatedInsn) : Option (List Nat) :=
  if a.insn.opc = EXIT then some (encodeInsn retJAInsn)
  else
    match a.call_target_function with
    | none => none
    | some t =>
      match lookupKV funcOffs t with
      | none => none
      | some toff =>
        some (encodeInsn (callJAInsn f.stack_usage (callDiff toff (f.global_linked_offset + i * 8))))

/-- Does this instruction's rewritten displacement overflow `i16`? -/
def overflowInsn (funcOffs : List ((Nat × Nat) × Nat)) (f : Function) (i : Nat)
    (a : AnnotatedInsn) : Bool :=
  match a.call_target_function with
  | none => false
  | some t =>
    match lookupKV funcOffs t with
    | none => false
    | some toff => !(i16fits (callDiff toff (f.global_linked_offset + i * 8)))

def overflowCode (funcOffs : List ((Nat × Nat) × Nat)) (f : Function) :
    Nat → List AnnotatedInsn → Bool
  | _, [] => false
  | i, a :: rest => overflowInsn funcOffs f i a || overflowCode funcOffs f (i + 1) rest

def overflowSurvivors (funcOffs : List ((Nat × Nat) × Nat)) :
    List ((Nat × Nat) × Function) → Bool
  | [] => false
  | (_, f) :: rest => overflowCode funcOffs f 0 f.code || overflowSurvivors funcOffs rest

/-- Does the rewrite phase touch this instruction's slot at all? -/
def rewritesSlot (a : AnnotatedInsn) : Bool :=
  a.call_target_function.isSome || (a.insn.opc == EXIT)

/-! ## Global linker phase i: emit_offset_table (lines 101-118) -/

/-- Phase `emit_offset_table`: collect `func.name ↦ global_linked_offset`
over the surviving functions into an insertion-ordered map (lines 102-110;
a repeated bare name overwrites the earlier value), then insert each entry
into the offset table (lines 111-116, `as i32`). -/
def collectFuncOffsets (objects : List ObjectModel) :
    List (String × (Nat × Nat)) → List (String × Nat) → Outcome (List (String × Nat))
  | [], m => .ok m
  | p :: rest, m =>
    match objects[p.2.1]? with
    | none => .panic
    | some obj =>
      match obj.functions[p.2.2]? with
      | none => .panic
      | some nf => collectFuncOffsets objects rest (insertIdx m nf.2.name nf.2.global_linked_offset)

def emit_offset_table (allFunctions : List (String × (Nat × Nat)))
    (objects : List ObjectModel) : Outcome (List (String × Int)) :=
  (collectFuncOffsets objects allFunctions []).bind
    (fun m => .ok (m.foldl (fun tbl p => insertIdx tbl p.1 (natToI32 p.2)) []))

/-! ## The emit() driver (global_linker.rs lines 75-99) -/

/-- Build the `(key, function)` list the rewrite phase iterates over. -/
def buildSurvivors (allFunctions : List (String × (Nat × Nat)))
    (objects : List ObjectModel) : Outcome (List ((Nat × Nat) × Function)) :=
  allFunctions.foldr
    (fun p acc =>
      acc.bind (fun l =>
        match objects[p.2.1]? with
        | none => .panic
        | some obj =>
          match obj.functions[p.2.2]? with
          | none => .panic
          | some nf => .ok ((p.2, nf.2) :: l)))
    (.ok [])

/-- The `emit()` driver: run the phases in their strict order and assemble
the image. -/
def emit (config : GlobalLinkerConfig) (objects0 : List ObjectModel) : Outcome Image :=
  (emit_data config.host_platform.data_offset 0 objects0 [] []).bind (fun st =>
    (populate_all_functions 0 objects0 []).bind (fun allFns0 =>
      (resolve_pseudo_calls config.host_platform.helpers config.target_machine.helpers
          allFns0 objects0).bind (fun objects1 =>
        (resolve_generic_relocs st.2 0 objects1).bind (fun objects2 =>
          (match config.dce_roots with
           | some roots => global_dce roots allFns0 objects2
           | none => .ok allFns0).bind (fun allFns1 =>
            (emit_code_image allFns1 objects2 (emit_entry_trampoline [])).bind (fun st2 =>
              (buildSurvivors allFns1 st2.1).bind (fun survivors =>
                (rewrite_image_call_return survivors st2.2).bind (fun codeImage =>
                  (emit_offset_table allFns1 st2.1).bind (fun table =>
                    .ok ⟨codeImage, st.1, table⟩)))))))))

/-! ## The E2 scenario input (spec §8, claim C6)

One object with a single global function `entry` whose body is
`MOV64_IMM r0, 42` then `EXIT`, no relocations, no data sections, and
`dce_roots = ["entry"]`.  The function is given exactly as the local linker
produces it (`populate_functions` then `calculate_stack_usage` then
`patch_callee_saved_regs`, the latter two applied literally below). -/
def e2FunctionRaw : Function :=
  { name := "entry"
    section_index := 2
    offset := 0
    end_offset := 16
    code := [⟨⟨MOV64_IMM, 0, 0, 0, 42⟩, 0, none⟩, ⟨⟨EXIT, 0, 0, 0, 0⟩, 8, none⟩]
    global := true
    stack_usage := 0
    global_linked_offset := 0 }

def e2Object : ObjectModel :=
  { name := "main.o"
    sections := []
    syms := []
    functions := patch_callee_saved_regs (calculate_stack_usage [("entry", e2FunctionRaw)])
    reloc := [] }

def e2Config : GlobalLinkerConfig :=
  { target_machine := ⟨[]⟩
    host_platform := ⟨0, []⟩
    dce_roots := some ["entry"] }

/-- Instruction at position `i` of function `fi` in a function table. -/
def insnAt (fns : List (String × Function)) (fi i : Nat) : Option AnnotatedInsn :=
  (fns[fi]?).bind (fun p => p.2.code[i]?)

/-- Immediate of the instruction at position `i` of function `fi`. -/
def immAt (fns : List (String × Function)) (fi i : Nat) : Option Int :=
  (insnAt fns fi i).map (fun a => a.insn.imm)

/-- Precondition of claim C9 for one relocation entry: the entry's offset
lies inside its function's body, and an `R_BPF_64_64` entry lies at least
16 bytes before the function's end. -/
def relocInBounds (functions : List (String × Function)) (e : (Nat × Nat) × RelocModel) : Bool :=
  match functions[e.1.1]? with
  | none => false
  | some nf =>
    decide (e.1.2 < 8 * nf.2.code.length) &&
      (!(e.2.rType == R_BPF_64_64) || decide (e.1.2 + 16 ≤ 8 * nf.2.code.length))

/-- The concrete function used by the C3 counterexample and witness: an
`LD_DW_IMM` pair whose low immediate is −1 and high immediate 0. -/
def c3Fun : Function :=
  { name := "f"
    section_index := 2
    offset := 0
    end_offset := 24
    code := [⟨⟨LD_DW_IMM, 1, 0, 0, -1⟩, 0, none⟩, ⟨⟨0, 0, 0, 0, 0⟩, 8, none⟩,
      ⟨⟨EXIT, 0, 0, 0, 0⟩, 16, none⟩]
    global := false
    stack_usage := 0
    global_linked_offset := 0 }

/-- The concrete one-instruction function used by the C9 panic conjunct. -/
def c9Fun : Function :=
  { name := "f"
    section_index := 2
    offset := 0
    end_offset := 8
    code := [⟨⟨EXIT, 0, 0, 0, 0⟩, 0, none⟩]
    global := false
    stack_usage := 0
    global_linked_offset := 0 }

/-- The concrete function of the C4 witness (the spec's E6 scenario): a body
writing to r6 and r8 only, then `EXIT`. -/
def c4Fun : Function :=
  { name := "g"
    section_index := 2
    offset := 0
    end_offset := 24
    code := [⟨⟨MOV64_IMM, 6, 0, 0, 1⟩, 0, none⟩, ⟨⟨MOV64_IMM, 8, 0, 0, 2⟩, 8, none⟩,
      ⟨⟨EXIT, 0, 0, 0, 0⟩, 16, none⟩]
    global := true
    stack_usage := 0
    global_linked_offset := 0 }

/-- The sequence of surviving `Function` records in merged-table order, as
`emit_offset_table` resolves them (panicking on a bad index). -/
def resolvedFuncs (objects : List ObjectModel) :
    List (String × (Nat × Nat)) → Outcome (List Function)
  | [] => .ok []
  | p :: rest =>
    match objects[p.2.1]? with
    | none => .panic
    | some obj =>
      match obj.functions[p.2.2]? with
      | none => .panic
      | some nf => (resolvedFuncs objects rest).bind (fun l => .ok (nf.2 :: l))

/-- Keys of an association list are pairwise distinct. -/
def keysNodup {κ α : Type} (m : List (κ × α)) : Prop :=
  (m.map Prod.fst).Nodup

/-- Object A of the C7 counterexample: a non-global `foo` placed at 104. -/
def c7FunA : Function :=
  { name := "foo"
    section_index := 2
    offset := 0
    end_offset := 16
    code := [⟨⟨MOV64_IMM, 0, 0, 0, 1⟩, 0, none⟩, ⟨⟨EXIT, 0, 0, 0, 0⟩, 8, none⟩]
    global := false
    stack_usage := 0
    global_linked_offset := 104 }

/-- Object B of the C7 counterexample: a different non-global `foo` at 120. -/
def c7FunB : Function :=
  { name := "foo"
    section_index := 2
    offset := 0
    end_offset := 16
    code := [⟨⟨MOV64_IMM, 0, 0, 0, 2⟩, 0, none⟩, ⟨⟨EXIT, 0, 0, 0, 0⟩, 8, none⟩]
    global := false
    stack_usage := 0
    global_linked_offset := 120 }

def c7ObjA : ObjectModel :=
  { name := "a", sections := [], syms := [], functions := [("foo", c7FunA)], reloc := [] }

def c7ObjB : ObjectModel :=
  { name := "b", sections := [], syms := [], functions := [("foo", c7FunB)], reloc := [] }

/-- Two surviving functions occupy disjoint byte ranges of the code image. -/
def rangesDisjoint (p q : (Nat × Nat) × Function) : Prop :=
  p.2.global_linked_offset + p.2.code.length * 8 ≤ q.2.global_linked_offset ∨
  q.2.global_linked_offset + q.2.code.length * 8 ≤ p.2.global_linked_offset

instance (p q : (Nat × Nat) × Function) : Decidable (rangesDisjoint p q) := by
  unfold rangesDisjoint
  exact inferInstance

/-- The caller of the C1/C8 witness layout: one resolved call then `EXIT`,
at image offset 104 with 16 bytes of stack. -/
def w1Fun : Function :=
  { name := "main", section_index := 2, offset := 0, end_offset := 16,
    code := [⟨⟨CALL, 0, 1, 0, -1⟩, 0, some (0, 1)⟩, ⟨⟨EXIT, 0, 0, 0, 0⟩, 8, none⟩],
    global := true, stack_usage := 16, global_linked_offset := 104 }

/-- The callee of the C1/C8 witness layout: a single `EXIT` at offset 120. -/
def w2Fun : Function :=
  { name := "leaf", section_index := 2, offset := 16, end_offset := 24,
    code := [⟨⟨EXIT, 0, 0, 0, 0⟩, 0, none⟩],
    global := true, stack_usage := 0, global_linked_offset := 120 }

section C5Proof

private lemma stackUsageLoop_eq_max (l : List AnnotatedInsn) :
    ∀ acc, stackUsageLoop l acc = Nat.max acc (specStackUsage l) := by
  induction l with
  | nil => intro acc; simp [stackUsageLoop, specStackUsage]
  | cons a rest ih =>
    intro acc
    by_cases hst : opClass a.insn = BPF_ST ∨ opClass a.insn = BPF_STX
    · have hcls : ¬ (4 ≤ opClass a.insn) := by
        rcases hst with h | h <;> simp [h, BPF_ST, BPF_STX]
      have hesc : escapesStack a = false := by
        simp [escapesStack, hcls]
      by_cases hdst : a.insn.dst = 10
      · by_cases hoff : (0 : Int) ≤ a.insn.off
        · have hcontrib : storeContrib a = 0 := by
            simp [storeContrib, hst, hdst, not_lt.mpr hoff]
          simp [stackUsageLoop, hst, hdst, hoff, ih, specStackUsage, hesc, hcontrib]
        · have hcontrib : storeContrib a = (-a.insn.off).toNat := by
            simp [storeContrib, hst, hdst, lt_of_not_ge hoff]
          simp only [stackUsageLoop, hst, if_true, hdst, hoff, if_false, ite_true, ite_false]
          rw [ih]
          simp only [specStackUsage, hesc, Bool.false_eq_true, if_false, hcontrib]
          simp [Nat.max_assoc, Nat.max_left_comm, Nat.max_comm]
      · have hcontrib : storeContrib a = 0 := by
          simp [storeContrib, hdst]
        simp [stackUsageLoop, hst, hdst, ih, specStackUsage, hesc, hcontrib]
    · by_cases hld : opClass a.insn = BPF_LD ∨ opClass a.insn = BPF_LDX
      · have hcls : ¬ (4 ≤ opClass a.insn) := by
          rcases hld with h | h <;> simp [h, BPF_LD, BPF_LDX]
        have hesc : escapesStack a = false := by
          simp [escapesStack, hcls]
        have hcontrib : storeContrib a = 0 := by
          simp [storeContrib, hst]
        simp [stackUsageLoop, hst, hld, ih, specStackUsage, hesc, hcontrib]
      · have hcls : 4 ≤ opClass a.insn := by
          have h8 : opClass a.insn < 8 := Nat.mod_lt _ (by norm_num)
          simp [BPF_ST, BPF_STX] at hst
          simp [BPF_LD, BPF_LDX] at hld
          omega
        have hcontrib : storeContrib a = 0 := by
          simp [storeContrib, hst]
        by_cases hsrc : a.insn.src = 10
        · have hesc : escapesStack a = true := by
            simp [escapesStack, hcls, hsrc]
          simp [stackUsageLoop, hst, hld, hsrc, specStackUsage, hesc]
        · have hesc : escapesStack a = false := by
            simp [escapesStack, hsrc]
          simp [stackUsageLoop, hst, hld, hsrc, ih, specStackUsage, hesc, hcontrib]

end C5Proof

/-- C5.  For every function, `calculate_stack_usage` walks the instructions
in order and sets `stack_usage` to the maximum of `−offset` over the
ST/STX-class stores with `dst == 10` and `offset < 0` that the walk visits
(a non-negative stack offset only produces a warning and does not change the
accounting); an instruction whose opcode class is neither load nor store with
`src == 10` conservatively raises the result to 512 and stops the walk. -/
theorem c5_calculate_stack_usage (fns : List (String × Function)) :
    calculate_stack_usage fns
      = fns.map (fun p => (p.1, { p.2 with stack_usage := specStackUsage p.2.code })) := by
  unfold calculate_stack_usage
  apply List.map_congr_left
  intro p _
  have h := stackUsageLoop_eq_max p.2.code 0
  simp at h
  rw [h]

section C4Proof

private lemma countP_add_countP_not {α : Type} (l : List α) (p : α → Bool) :
    l.countP p + l.countP (fun a => !p a) = l.length := by
  induction l with
  | nil => simp
  | cons a rest ih =>
    by_cases h : p a = true <;> simp [List.countP_cons, h] <;> omega

private lemma patchAccum_eq_saved (code : List AnnotatedInsn) :
    patchAccum (needSaveList code).enum (0, [], []) =
      ((savedRegIndices code).length,
       (savedRegIndices code).enum.map (fun p => stSaveInsn (p.2 + 6) p.1),
       (savedRegIndices code).enum.map (fun p => ldRestoreInsn (p.2 + 6) p.1)) := by
  cases h6 : code.any (fun a => a.insn.dst == 6) <;>
  cases h7 : code.any (fun a => a.insn.dst == 7) <;>
  cases h8 : code.any (fun a => a.insn.dst == 8) <;>
  cases h9 : code.any (fun a => a.insn.dst == 9) <;>
  simp [needSaveList, savedRegIndices, h6, h7, h8, h9, patchAccum,
    List.enum, List.enumFrom, List.range_succ]

end C4Proof

/-- C4.  For every function ending in `EXIT`: writing `S` for the distinct
callee-saved registers (r6-r9) used as a destination and `N = |S|`,
`patch_callee_saved_regs` wraps the body in `SUB64_IMM r10, 8·N`, the `N`
spills at offsets `0, 8, …, 8·(N−1)` off r10, the original body, the mirrored
`N` reloads, `ADD64_IMM r10, 8·N` and the original trailing `EXIT`; it leaves
`stack_usage` unchanged; the new instruction count is the original count of
non-EXIT instructions plus one EXIT plus `2·N + (2 if N > 0 else 0)`; and a
function with `N = 0` is left unchanged. -/
theorem c4_patch_callee_saved_regs (f : Function) (e : AnnotatedInsn)
    (hLast : f.code.getLast? = some e) (hExit : e.insn.opc = EXIT) :
    ((savedRegIndices f.code).length = 0 → patchFn f = f) ∧
    (0 < (savedRegIndices f.code).length →
      (patchFn f).code = subFrameInsn (savedRegIndices f.code).length ::
        ((savedRegIndices f.code).enum.map (fun p => stSaveInsn (p.2 + 6) p.1)
          ++ f.code.dropLast
          ++ (savedRegIndices f.code).enum.map (fun p => ldRestoreInsn (p.2 + 6) p.1)
          ++ [addFrameInsn (savedRegIndices f.code).length, e])) ∧
    (patchFn f).stack_usage = f.stack_usage ∧
    (f.code.countP (fun a => a.insn.opc == EXIT) = 1 →
      (patchFn f).code.length
        = f.code.countP (fun a => !(a.insn.opc == EXIT)) + 1
          + 2 * (savedRegIndices f.code).length
          + (if 0 < (savedRegIndices f.code).length then 2 else 0)) := by
  have hne : f.code ≠ [] := by
    intro h
    rw [h] at hLast
    simp at hLast
  have hlen : 1 ≤ f.code.length := List.length_pos.mpr hne
  have hcount := countP_add_countP_not f.code (fun a => a.insn.opc == EXIT)
  have hp : patchFn f
      = (if (savedRegIndices f.code).length = 0 then f
         else { f with
           code := subFrameInsn (savedRegIndices f.code).length ::
             ((savedRegIndices f.code).enum.map (fun p => stSaveInsn (p.2 + 6) p.1)
               ++ f.code.dropLast
               ++ (savedRegIndices f.code).enum.map (fun p => ldRestoreInsn (p.2 + 6) p.1)
               ++ [addFrameInsn (savedRegIndices f.code).length, e]) }) := by
    unfold patchFn
    rw [hLast]
    simp only [hExit, ne_eq, not_true_eq_false, if_false, patchAccum_eq_saved f.code]
  refine ⟨?_, ?_, ?_, ?_⟩
  · intro hN
    simp [hp, hN]
  · intro hN
    have hN' : (savedRegIndices f.code).length ≠ 0 := Nat.pos_iff_ne_zero.mp hN
    simp [hp, hN']
  · rcases Nat.eq_zero_or_pos (savedRegIndices f.code).length with h0 | h0
    · simp [hp, h0]
    · have h0' : (savedRegIndices f.code).length ≠ 0 := Nat.pos_iff_ne_zero.mp h0
      simp [hp, h0']
  · intro hOne
    rcases Nat.eq_zero_or_pos (savedRegIndices f.code).length with h0 | h0
    · simp only [hp, h0, if_true, Nat.lt_irrefl, if_false, Nat.mul_zero]
      omega
    · have h0' : (savedRegIndices f.code).length ≠ 0 := Nat.pos_iff_ne_zero.mp h0
      simp only [hp, h0', if_false, h0, if_true]
      simp only [List.length_cons, List.length_append, List.length_map, List.enum_length,
        List.length_dropLast]
      simp only [List.length_nil]
      omega

/-- C6 (code evaluated at the failing input).  On the spec's E2 scenario —
one object with one global two-instruction function `entry`
(`MOV64_IMM r0, 42`; `EXIT`), no relocations, `dce_roots = ["entry"]` —
`emit()` does not succeed: it panics inside `global_dce`.  The function has
no call edges, so petgraph's `DiGraph::from_edges` builds a graph with zero
nodes, yet the root filter still yields node index 0, and the DFS's
fixed-size visit map panics on the out-of-bounds index.  The spec instead
requires success with `func_offsets = {"entry": 104}`. -/
theorem c6_e2_scenario_panics :
    emit e2Config [e2Object] = Outcome.panic ∧
    (populate_all_functions 0 [e2Object] []).bind
      (fun afns => global_dce ["entry"] afns [e2Object]) = Outcome.panic := by
  constructor
  · rfl
  · rfl

/-- C2.  For a CALL instruction with `src == 1` carrying a relocation at its
offset, resolution follows exactly this order: the relocation symbol's bare
name in the merged function map; then `object_name:symbol_name`; then — only
if the symbol is an import — `host_platform.helpers` followed by
`target_machine.helpers`, whose hit rewrites the instruction to
`imm := helper_index`, `src := 0` and records no call target; and if every
lookup misses the phase fails with the unresolved-pseudo-call error. -/
theorem c2_resolve_pseudo_call_order
    (hostHelpers targetHelpers : List (String × Int))
    (allFunctions : List (String × (Nat × Nat)))
    (functionMap : List ((Nat × Nat) × List (Nat × (String × Nat))))
    (oi fi : Nat) (objName : String) (syms : List SymModel) (funcOffset funcSection : Nat)
    (a : AnnotatedInsn) (reloc reloc' : List ((Nat × Nat) × RelocModel))
    (r : RelocModel) (sym : SymModel)
    (hCall : a.insn.opc = CALL) (hSrc : a.insn.src = 1)
    (hReloc : swapRemoveKV reloc (fi, u64bits a.original_offset) = some (r, reloc'))
    (hSym : syms[r.rSym]? = some sym) :
    (∀ t, lookupKV allFunctions sym.name = some t →
      resolvePseudoInsn hostHelpers targetHelpers allFunctions functionMap oi fi objName syms
          funcOffset funcSection a reloc
        = .ok ({ a with call_target_function := some t }, reloc')) ∧
    (lookupKV allFunctions sym.name = none →
     ∀ t, lookupKV allFunctions (objName ++ ":" ++ sym.name) = some t →
      resolvePseudoInsn hostHelpers targetHelpers allFunctions functionMap oi fi objName syms
          funcOffset funcSection a reloc
        = .ok ({ a with call_target_function := some t }, reloc')) ∧
    (lookupKV allFunctions sym.name = none →
     lookupKV allFunctions (objName ++ ":" ++ sym.name) = none →
     sym.isImport = true →
     ∀ h, lookupKV hostHelpers sym.name = some h →
      resolvePseudoInsn hostHelpers targetHelpers allFunctions functionMap oi fi objName syms
          funcOffset funcSection a reloc
        = .ok ({ a with insn := { a.insn with imm := h, src := 0 } }, reloc')) ∧
    (lookupKV allFunctions sym.name = none →
     lookupKV allFunctions (objName ++ ":" ++ sym.name) = none →
     sym.isImport = true →
     lookupKV hostHelpers sym.name = none →
     ∀ h, lookupKV targetHelpers sym.name = some h →
      resolvePseudoInsn hostHelpers targetHelpers allFunctions functionMap oi fi objName syms
          funcOffset funcSection a reloc
        = .ok ({ a with insn := { a.insn with imm := h, src := 0 } }, reloc')) ∧
    (lookupKV allFunctions sym.name = none →
     lookupKV allFunctions (objName ++ ":" ++ sym.name) = none →
     (sym.isImport = false ∨
        (lookupKV hostHelpers sym.name = none ∧ lookupKV targetHelpers sym.name = none)) →
      (resolvePseudoInsn hostHelpers targetHelpers allFunctions functionMap oi fi objName syms
          funcOffset funcSection a reloc).isErr = true) := by
  refine ⟨?_, ?_, ?_, ?_, ?_⟩
  · intro t h1
    simp [resolvePseudoInsn, hCall, hSrc, hReloc, hSym, resolvePseudoCallSym, h1,
      Option.orElse, Outcome.bind]
  · intro h1 t h2
    simp [resolvePseudoInsn, hCall, hSrc, hReloc, hSym, resolvePseudoCallSym, h1, h2,
      Option.orElse, Outcome.bind]
  · intro h1 h2 himp h h3
    simp [resolvePseudoInsn, hCall, hSrc, hReloc, hSym, resolvePseudoCallSym, h1, h2, himp, h3,
      Option.orElse, Outcome.bind]
  · intro h1 h2 himp h3 h h4
    simp [resolvePseudoInsn, hCall, hSrc, hReloc, hSym, resolvePseudoCallSym, h1, h2, himp,
      h3, h4, Option.orElse, Outcome.bind]
  · intro h1 h2 hmiss
    rcases hmiss with himp | ⟨h3, h4⟩
    · simp [resolvePseudoInsn, hCall, hSrc, hReloc, hSym, resolvePseudoCallSym, h1, h2, himp,
        Option.orElse, Outcome.bind, Outcome.isErr]
    · cases himp : sym.isImport <;>
      simp [resolvePseudoInsn, hCall, hSrc, hReloc, hSym, resolvePseudoCallSym, h1, h2, himp,
        h3, h4, Option.orElse, Outcome.bind, Outcome.isErr]

/-- Witness for C2: the E4-style helper import — `printk` is an imported
symbol absent from the function map, `host_platform.helpers` maps it to 7,
and the CALL instruction is rewritten to `imm = 7`, `src = 0` with no call
target recorded. -/
theorem c2_resolve_pseudo_call_order_witness :
    ((⟨⟨CALL, 0, 1, 0, -1⟩, 0, none⟩ : AnnotatedInsn).insn.opc = CALL) ∧
    ((⟨⟨CALL, 0, 1, 0, -1⟩, 0, none⟩ : AnnotatedInsn).insn.src = 1) ∧
    (swapRemoveKV [(((0 : Nat), (0 : Nat)), (⟨0, 10⟩ : RelocModel))]
      ((0 : Nat), u64bits (⟨⟨CALL, 0, 1, 0, -1⟩, 0, none⟩ : AnnotatedInsn).original_offset)
      = some (⟨0, 10⟩, [])) ∧
    ([(⟨"printk", 0, 0, 0, true⟩ : SymModel)][(⟨0, 10⟩ : RelocModel).rSym]?
      = some ⟨"printk", 0, 0, 0, true⟩) ∧
    (lookupKV ([] : List (String × (Nat × Nat))) "printk" = none) ∧
    (lookupKV ([] : List (String × (Nat × Nat))) ("a" ++ ":" ++ "printk") = none) ∧
    ((⟨"printk", 0, 0, 0, true⟩ : SymModel).isImport = true) ∧
    (lookupKV [("printk", (7 : Int))] "printk" = some 7) ∧
    resolvePseudoInsn [("printk", (7 : Int))] [] [] [] 0 0 "a"
        [⟨"printk", 0, 0, 0, true⟩] 0 1 ⟨⟨CALL, 0, 1, 0, -1⟩, 0, none⟩
        [((0, 0), ⟨0, 10⟩)]
      = .ok (⟨⟨CALL, 0, 0, 0, 7⟩, 0, none⟩, []) := by
  refine ⟨by decide, by decide, by decide, by decide, by decide, by decide, by decide,
    by decide, ?_⟩
  exact (c2_resolve_pseudo_call_order [("printk", (7 : Int))] [] [] [] 0 0 "a"
    [⟨"printk", 0, 0, 0, true⟩] 0 1 ⟨⟨CALL, 0, 1, 0, -1⟩, 0, none⟩
    [((0, 0), ⟨0, 10⟩)] [] ⟨0, 10⟩ ⟨"printk", 0, 0, 0, true⟩
    (by decide) (by decide) (by decide) (by decide)).2.2.1
    (by decide) (by decide) (by decide) 7 (by decide)

section RelocLemmas

private lemma getElem?_lt_of_eq_some {α : Type} {l : List α} {i : Nat} {a : α}
    (h : l[i]? = some a) : i < l.length := by
  by_contra hc
  rw [List.getElem?_eq_none_iff.mpr (Nat.le_of_not_lt hc)] at h
  cases h

private lemma updImm_length (code : List AnnotatedInsn) (i : Nat) (v : Int) :
    (updImm code i v).length = code.length := by
  unfold updImm
  cases h : code[i]? with
  | none => rfl
  | some a => simp

private lemma updImm_at {code : List AnnotatedInsn} {i : Nat} {a : AnnotatedInsn} (v : Int)
    (h : code[i]? = some a) :
    (updImm code i v)[i]? = some { a with insn := { a.insn with imm := v } } := by
  unfold updImm
  rw [h]
  rw [List.getElem?_set_self (getElem?_lt_of_eq_some h)]

private lemma updImm_ne (code : List AnnotatedInsn) {i : Nat} (v : Int) {j : Nat}
    (h : i ≠ j) : (updImm code i v)[j]? = code[j]? := by
  unfold updImm
  cases hc : code[i]? with
  | none => rfl
  | some a => rw [List.getElem?_set_ne h]

end RelocLemmas

/-- C3 (amended).  For a relocation surviving pseudo-call resolution over a
local data symbol `s` whose section base is `dataBase` (with
`dataBase + st_value` in u32 range): an `R_BPF_64_32` relocation replaces the
immediate at `offset/8` by `pre_imm + dataBase + st_value` in wrapping i32
arithmetic; an `R_BPF_64_64` relocation combines the two immediates with
`combine64sx` — the sign-extension of the low word OR-ed with the high word
shifted left 32, which equals the plain concatenation `combine64zx` exactly
when the low immediate is non-negative — adds `dataBase + st_value` modulo
2^64, and splits the result back across the two words; all other
instructions and functions are untouched. -/
theorem c3_generic_reloc_application
    (dso : List ((Nat × Nat) × Nat)) (objectIndex : Nat) (syms : List SymModel)
    (functions : List (String × Function)) (fi offsetInFunc : Nat) (r : RelocModel)
    (sym : SymModel) (dataBase : Nat) (nf : String × Function)
    (hSym : syms[r.rSym]? = some sym) (hBind : sym.stBind = STB_LOCAL)
    (hBase : lookupKV dso (objectIndex, sym.stShndx) = some dataBase)
    (hFn : functions[fi]? = some nf)
    (hRange : dataBase + sym.stValue < 4294967296) :
    (r.rType = R_BPF_64_32 →
      ∀ a0, nf.2.code[offsetInFunc / 8]? = some a0 →
        ∃ fns', applyGenericReloc dso objectIndex syms functions (fi, offsetInFunc) r
            = .ok fns' ∧
          immAt fns' fi (offsetInFunc / 8)
            = some (natToI32 (u32bits a0.insn.imm + dataBase + sym.stValue)) ∧
          (∀ j, j ≠ offsetInFunc / 8 → insnAt fns' fi j = insnAt functions fi j) ∧
          (∀ g, g ≠ fi → fns'[g]? = functions[g]?)) ∧
    (r.rType = R_BPF_64_64 →
      ∀ a0 a1, nf.2.code[offsetInFunc / 8]? = some a0 →
        nf.2.code[offsetInFunc / 8 + 1]? = some a1 →
        ∃ fns', applyGenericReloc dso objectIndex syms functions (fi, offsetInFunc) r
            = .ok fns' ∧
          immAt fns' fi (offsetInFunc / 8)
            = some (natToI32 ((combine64sx a0.insn.imm a1.insn.imm + dataBase + sym.stValue)
                % 18446744073709551616)) ∧
          immAt fns' fi (offsetInFunc / 8 + 1)
            = some (natToI32 (((combine64sx a0.insn.imm a1.insn.imm + dataBase + sym.stValue)
                % 18446744073709551616) / 4294967296)) ∧
          (∀ j, j ≠ offsetInFunc / 8 → j ≠ offsetInFunc / 8 + 1 →
            insnAt fns' fi j = insnAt functions fi j) ∧
          (∀ g, g ≠ fi → fns'[g]? = functions[g]?)) := by
  have hfi : fi < functions.length := getElem?_lt_of_eq_some hFn
  have hOffEq : (dataBase + sym.stValue) % 4294967296 = dataBase + sym.stValue :=
    Nat.mod_eq_of_lt hRange
  constructor
  · intro hT a0 h0
    have hTne : r.rType ≠ R_BPF_64_64 := by
      rw [hT]
      decide
    refine ⟨functions.set fi
      (nf.1, { nf.2 with
        code := updImm nf.2.code (offsetInFunc / 8)
          (natToI32 (u32bits a0.insn.imm + (dataBase + sym.stValue) % 4294967296)) }), ?_, ?_, ?_, ?_⟩
    · simp only [applyGenericReloc, hSym, hBind, STB_LOCAL, ne_eq, not_true_eq_false, if_false,
        hBase, hFn]
      simp only [applyRelocToCode, hT, hTne, if_true]
      rw [h0]
      rfl
    · simp only [immAt, insnAt, List.getElem?_set_self hfi, Option.bind, Option.map]
      rw [updImm_at _ h0]
      rw [hOffEq, ← Nat.add_assoc]
    · intro j hj
      simp only [insnAt, List.getElem?_set_self hfi, hFn, Option.bind]
      rw [updImm_ne _ _ (fun h => hj h.symm)]
    · intro g hg
      exact List.getElem?_set_ne (fun h => hg h.symm)
  · intro hT a0 a1 h0 h1
    refine ⟨functions.set fi
      (nf.1, { nf.2 with
        code := updImm (updImm nf.2.code (offsetInFunc / 8)
            (natToI32 ((combine64sx a0.insn.imm a1.insn.imm
              + (dataBase + sym.stValue) % 4294967296) % 18446744073709551616)))
          (offsetInFunc / 8 + 1)
          (natToI32 (((combine64sx a0.insn.imm a1.insn.imm
              + (dataBase + sym.stValue) % 4294967296) % 18446744073709551616)
            / 4294967296)) }), ?_, ?_, ?_, ?_, ?_⟩
    · simp only [applyGenericReloc, hSym, hBind, STB_LOCAL, ne_eq, not_true_eq_false, if_false,
        hBase, hFn]
      simp only [applyRelocToCode, hT, if_true]
      rw [h0, h1]
      rfl
    · simp only [immAt, insnAt, List.getElem?_set_self hfi, Option.bind, Option.map]
      rw [updImm_ne _ _ (by omega)]
      rw [updImm_at _ h0]
      rw [hOffEq, ← Nat.add_assoc]
    · simp only [immAt, insnAt, List.getElem?_set_self hfi, Option.bind, Option.map]
      rw [updImm_at _ (by rw [updImm_ne _ _ (by omega)]; exact h1)]
      rw [hOffEq, ← Nat.add_assoc]
    · intro j hj hj'
      simp only [insnAt, List.getElem?_set_self hfi, hFn, Option.bind]
      rw [updImm_ne _ _ (fun h => hj' h.symm), updImm_ne _ _ (fun h => hj h.symm)]
    · intro g hg
      exact List.getElem?_set_ne (fun h => hg h.symm)


section C9Lemmas

private lemma applyRelocToCode_ok_length {rType thisOffset : Nat} {code : List AnnotatedInsn}
    {i0 : Nat} {code' : List AnnotatedInsn}
    (h : applyRelocToCode rType thisOffset code i0 = .ok code') :
    code'.length = code.length := by
  unfold applyRelocToCode at h
  by_cases ht : rType = R_BPF_64_64
  · simp only [ht, if_true] at h
    cases h0 : code[i0]? with
    | none =>
      simp only [h0] at h
      exact Outcome.noConfusion h
    | some a0 =>
      simp only [h0] at h
      cases h1 : code[i0 + 1]? with
      | none =>
        simp only [h1] at h
        exact Outcome.noConfusion h
      | some a1 =>
        simp only [h1, Outcome.ok.injEq] at h
        subst h
        simp [updImm_length]
  · simp only [ht, if_false] at h
    by_cases ht2 : rType = R_BPF_64_32
    · simp only [ht2, if_true] at h
      cases h0 : code[i0]? with
      | none =>
        simp only [h0] at h
        exact Outcome.noConfusion h
      | some a0 =>
        simp only [h0, Outcome.ok.injEq] at h
        subst h
        simp [updImm_length]
    · simp only [ht2, if_false] at h
      exact Outcome.noConfusion h

private lemma applyRelocToCode_ne_panic {rType thisOffset : Nat} {code : List AnnotatedInsn}
    {i0 : Nat} (hlt : i0 < code.length)
    (hlt2 : rType = R_BPF_64_64 → i0 + 1 < code.length) :
    applyRelocToCode rType thisOffset code i0 ≠ Outcome.panic := by
  intro h
  unfold applyRelocToCode at h
  by_cases ht : rType = R_BPF_64_64
  · simp only [ht, if_true] at h
    obtain ⟨a0, h0⟩ : ∃ a, code[i0]? = some a :=
      ⟨code[i0], List.getElem?_eq_getElem hlt⟩
    obtain ⟨a1, h1⟩ : ∃ a, code[i0 + 1]? = some a :=
      ⟨code[i0 + 1], List.getElem?_eq_getElem (hlt2 ht)⟩
    simp only [h0, h1] at h
    exact Outcome.noConfusion h
  · simp only [ht, if_false] at h
    by_cases ht2 : rType = R_BPF_64_32
    · simp only [ht2, if_true] at h
      obtain ⟨a0, h0⟩ :=
        (⟨code[i0], List.getElem?_eq_getElem hlt⟩ : ∃ a, code[i0]? = some a)
      simp only [h0] at h
      exact Outcome.noConfusion h
    · simp only [ht2, if_false] at h
      exact Outcome.noConfusion h

private lemma applyGenericReloc_ok_lengths {dso : List ((Nat × Nat) × Nat)} {oi : Nat}
    {syms : List SymModel} {fns : List (String × Function)} {k : Nat × Nat} {r : RelocModel}
    {fns' : List (String × Function)}
    (h : applyGenericReloc dso oi syms fns k r = .ok fns') :
    fns'.length = fns.length ∧
    ∀ g : Nat, (fns'[g]?).map (fun p : String × Function => p.2.code.length)
      = (fns[g]?).map (fun p : String × Function => p.2.code.length) := by
  unfold applyGenericReloc at h
  cases hs : syms[r.rSym]? with
  | none =>
    simp only [hs] at h
    exact Outcome.noConfusion h
  | some sym =>
  simp only [hs] at h
  by_cases hb : sym.stBind ≠ STB_LOCAL
  · simp only [if_pos hb] at h
    exact Outcome.noConfusion h
  · simp only [if_neg hb] at h
    cases hd : lookupKV dso (oi, sym.stShndx) with
    | none =>
      simp only [hd] at h
      exact Outcome.noConfusion h
    | some dataBase =>
    simp only [hd] at h
    cases hf : fns[k.1]? with
    | none =>
      simp only [hf] at h
      exact Outcome.noConfusion h
    | some nf =>
    simp only [hf] at h
    have hlt : k.1 < fns.length := getElem?_lt_of_eq_some hf
    cases ha : applyRelocToCode r.rType ((dataBase + sym.stValue) % 4294967296) nf.2.code
        (k.2 / 8) with
    | panic =>
      simp only [ha, Outcome.bind] at h
      exact Outcome.noConfusion h
    | err e =>
      simp only [ha, Outcome.bind] at h
      exact Outcome.noConfusion h
    | ok code' =>
      simp only [ha, Outcome.bind, Outcome.ok.injEq] at h
      subst h
      refine ⟨by simp, ?_⟩
      intro g
      by_cases hg : g = k.1
      · subst hg
        rw [List.getElem?_set_self hlt, hf]
        simp [applyRelocToCode_ok_length ha]
      · rw [List.getElem?_set_ne (fun hh => hg hh.symm)]

private lemma applyGenericReloc_ne_panic {dso : List ((Nat × Nat) × Nat)} {oi : Nat}
    {syms : List SymModel} {fns : List (String × Function)} {k : Nat × Nat} {r : RelocModel}
    (hbnd : relocInBounds fns (k, r) = true) :
    applyGenericReloc dso oi syms fns k r ≠ Outcome.panic := by
  intro h
  unfold relocInBounds at hbnd
  cases hf : fns[k.1]? with
  | none =>
    rw [hf] at hbnd
    cases hbnd
  | some nf =>
  rw [hf] at hbnd
  simp only [Bool.and_eq_true, decide_eq_true_eq, Bool.or_eq_true, Bool.not_eq_eq_eq_not,
    Bool.not_true, beq_eq_false_iff_ne, ne_eq, beq_iff_eq] at hbnd
  obtain ⟨hb1, hb2⟩ := hbnd
  unfold applyGenericReloc at h
  cases hs : syms[r.rSym]? with
  | none =>
    simp only [hs] at h
    exact Outcome.noConfusion h
  | some sym =>
  simp only [hs] at h
  by_cases hb : sym.stBind ≠ STB_LOCAL
  · simp only [if_pos hb] at h
    exact Outcome.noConfusion h
  · simp only [if_neg hb] at h
    cases hd : lookupKV dso (oi, sym.stShndx) with
    | none =>
      simp only [hd] at h
      exact Outcome.noConfusion h
    | some dataBase =>
    simp only [hd, hf] at h
    cases ha : applyRelocToCode r.rType ((dataBase + sym.stValue) % 4294967296) nf.2.code
        (k.2 / 8) with
    | panic =>
      refine applyRelocToCode_ne_panic ?_ ?_ ha
      · omega
      · intro ht
        have : k.2 + 16 ≤ 8 * nf.2.code.length := by
          rcases hb2 with hb2 | hb2
          · exact absurd ht hb2
          · exact hb2
        omega
    | err e =>
      simp only [ha, Outcome.bind] at h
      exact Outcome.noConfusion h
    | ok code' =>
      simp only [ha, Outcome.bind] at h
      exact Outcome.noConfusion h

end C9Lemmas

/-- C9.  `resolve_generic_relocs` indexes each function's instruction array
at `offset/8` (for `R_BPF_64_64` also at `offset/8 + 1`) with no bounds
check.  Under the precondition that every relocation names an existing
function, lies inside that function's body, and — when of type
`R_BPF_64_64` — at least 16 bytes before its end, the relocation walk never
panics; and on a concrete out-of-bounds relocation it panics rather than
returning an error value. -/
theorem c9_generic_reloc_indexing
    (dso : List ((Nat × Nat) × Nat)) (oi : Nat) (syms : List SymModel)
    (relocs : List ((Nat × Nat) × RelocModel)) (functions : List (String × Function))
    (hPre : ∀ e ∈ relocs, relocInBounds functions e = true) :
    relocFold dso oi syms relocs functions ≠ Outcome.panic ∧
    relocFold [(((0 : Nat), (3 : Nat)), (0 : Nat))] 0 [⟨"d", 0, 3, 0, false⟩]
      [((0, 8), ⟨0, 10⟩)] [("f", c9Fun)] = Outcome.panic := by
  constructor
  · induction relocs generalizing functions with
    | nil =>
      intro h
      exact Outcome.noConfusion h
    | cons e rest ih =>
      obtain ⟨k, r⟩ := e
      have hbnd := hPre (k, r) (List.mem_cons_self _ _)
      intro h
      unfold relocFold at h
      cases ha : applyGenericReloc dso oi syms functions k r with
      | panic => exact applyGenericReloc_ne_panic hbnd ha
      | err e =>
        simp only [ha, Outcome.bind] at h
        exact Outcome.noConfusion h
      | ok fns' =>
        simp only [ha, Outcome.bind] at h
        refine ih fns' ?_ h
        intro e' he'
        have hpre' := hPre e' (List.mem_cons_of_mem _ he')
        obtain ⟨hlen, hcode⟩ := applyGenericReloc_ok_lengths ha
        unfold relocInBounds at hpre' ⊢
        cases hfe : functions[e'.1.1]? with
        | none =>
          rw [hfe] at hpre'
          cases hpre'
        | some nf =>
          rw [hfe] at hpre'
          have hmap := hcode e'.1.1
          rw [hfe] at hmap
          cases hfe' : fns'[e'.1.1]? with
          | none =>
            rw [hfe'] at hmap
            cases hmap
          | some nf' =>
            rw [hfe'] at hmap
            simp only [Option.map, Option.some.injEq] at hmap
            show (decide (e'.1.2 < 8 * nf'.2.code.length) &&
              (!e'.2.rType == R_BPF_64_64 ||
                decide (e'.1.2 + 16 ≤ 8 * nf'.2.code.length))) = true
            rw [hmap]
            exact hpre'
  · decide

/-- Counterexample for C3 as stated: an `R_BPF_64_64` relocation over an
`LD_DW_IMM` pair with `imm_lo = −1`, `imm_hi = 0` and relocated base 1.  The
claim's "64-bit value formed from the two immediates" (`combine64zx`)
predicts a post-link high immediate of 1, but the code's sign-extending
combine produces 0. -/
theorem c3_claim_counterexample :
    (match applyGenericReloc [((0, 3), 1)] 0 [⟨"d", 0, 3, 0, false⟩] [("f", c3Fun)] (0, 0)
        ⟨0, 1⟩ with
     | .ok fns => immAt fns 0 1
     | _ => none) = some 0 ∧
    natToI32 (((combine64zx (-1) 0 + 1) % 18446744073709551616) / 4294967296) = 1 ∧
    some (0 : Int) ≠ some (1 : Int) := by
  refine ⟨by decide, by decide, by decide⟩

/-- Witness for C3 (amended): the amended theorem applied to the
counterexample's input, exhibiting the sign-extending combine. -/
theorem c3_generic_reloc_application_witness :
    ([(⟨"d", 0, 3, 0, false⟩ : SymModel)][(⟨0, 1⟩ : RelocModel).rSym]?
      = some ⟨"d", 0, 3, 0, false⟩) ∧
    ((⟨"d", 0, 3, 0, false⟩ : SymModel).stBind = STB_LOCAL) ∧
    (lookupKV [(((0 : Nat), (3 : Nat)), (1 : Nat))]
      ((0 : Nat), (⟨"d", 0, 3, 0, false⟩ : SymModel).stShndx) = some 1) ∧
    ([("f", c3Fun)][(0 : Nat)]? = some ("f", c3Fun)) ∧
    ((1 : Nat) + (⟨"d", 0, 3, 0, false⟩ : SymModel).stValue < 4294967296) ∧
    ((⟨0, 1⟩ : RelocModel).rType = R_BPF_64_64) ∧
    (c3Fun.code[(0 : Nat) / 8]? = some ⟨⟨LD_DW_IMM, 1, 0, 0, -1⟩, 0, none⟩) ∧
    (c3Fun.code[(0 : Nat) / 8 + 1]? = some ⟨⟨0, 0, 0, 0, 0⟩, 8, none⟩) ∧
    (∃ fns', applyGenericReloc [((0, 3), 1)] 0 [⟨"d", 0, 3, 0, false⟩] [("f", c3Fun)]
        (0, 0) ⟨0, 1⟩ = .ok fns' ∧
      immAt fns' 0 (0 / 8)
        = some (natToI32 ((combine64sx (-1) 0 + 1 + 0) % 18446744073709551616)) ∧
      immAt fns' 0 (0 / 8 + 1)
        = some (natToI32 (((combine64sx (-1) 0 + 1 + 0) % 18446744073709551616)
            / 4294967296)) ∧
      (∀ j, j ≠ 0 / 8 → j ≠ 0 / 8 + 1 → insnAt fns' 0 j = insnAt [("f", c3Fun)] 0 j) ∧
      (∀ g, g ≠ 0 → fns'[g]? = [("f", c3Fun)][g]?)) := by
  refine ⟨by decide, by decide, by decide, by decide, by decide, by decide, by decide,
    by decide, ?_⟩
  exact (c3_generic_reloc_application [((0, 3), 1)] 0 [⟨"d", 0, 3, 0, false⟩]
    [("f", c3Fun)] 0 0 ⟨0, 1⟩ ⟨"d", 0, 3, 0, false⟩ 1 ("f", c3Fun)
    (by decide) (by decide) (by decide) (by decide) (by decide)).2 (by decide)
    ⟨⟨LD_DW_IMM, 1, 0, 0, -1⟩, 0, none⟩ ⟨⟨0, 0, 0, 0, 0⟩, 8, none⟩ (by decide) (by decide)

/-- Witness for C9: a one-relocation in-bounds instance where the walk does
not panic, together with the theorem's concrete out-of-bounds panic. -/
theorem c9_generic_reloc_indexing_witness :
    (∀ e ∈ [(((0 : Nat), (0 : Nat)), (⟨0, 10⟩ : RelocModel))],
      relocInBounds [("f", c3Fun)] e = true) ∧
    (relocFold [(((0 : Nat), (3 : Nat)), (5 : Nat))] 0 [⟨"d", 0, 3, 0, false⟩]
        [((0, 0), ⟨0, 10⟩)] [("f", c3Fun)] ≠ Outcome.panic ∧
      relocFold [(((0 : Nat), (3 : Nat)), (0 : Nat))] 0 [⟨"d", 0, 3, 0, false⟩]
        [((0, 8), ⟨0, 10⟩)] [("f", c9Fun)] = Outcome.panic) :=
  ⟨by decide, c9_generic_reloc_indexing [((0, 3), 5)] 0 [⟨"d", 0, 3, 0, false⟩]
    [((0, 0), ⟨0, 10⟩)] [("f", c3Fun)] (by decide)⟩

/-- Witness for C4: the E6 scenario — r6 and r8 are live, so the prologue is
`SUB64_IMM r10, 16` plus two spills at offsets 0 and 8, mirrored before the
trailing `EXIT`, and the instruction count grows by 2·2 + 2. -/
theorem c4_patch_callee_saved_regs_witness :
    (c4Fun.code.getLast? = some ⟨⟨EXIT, 0, 0, 0, 0⟩, 16, none⟩) ∧
    ((⟨⟨EXIT, 0, 0, 0, 0⟩, 16, none⟩ : AnnotatedInsn).insn.opc = EXIT) ∧
    (((savedRegIndices c4Fun.code).length = 0 → patchFn c4Fun = c4Fun) ∧
      (0 < (savedRegIndices c4Fun.code).length →
        (patchFn c4Fun).code = subFrameInsn (savedRegIndices c4Fun.code).length ::
          ((savedRegIndices c4Fun.code).enum.map (fun p => stSaveInsn (p.2 + 6) p.1)
            ++ c4Fun.code.dropLast
            ++ (savedRegIndices c4Fun.code).enum.map (fun p => ldRestoreInsn (p.2 + 6) p.1)
            ++ [addFrameInsn (savedRegIndices c4Fun.code).length,
                ⟨⟨EXIT, 0, 0, 0, 0⟩, 16, none⟩])) ∧
      (patchFn c4Fun).stack_usage = c4Fun.stack_usage ∧
      (c4Fun.code.countP (fun a => a.insn.opc == EXIT) = 1 →
        (patchFn c4Fun).code.length
          = c4Fun.code.countP (fun a => !(a.insn.opc == EXIT)) + 1
            + 2 * (savedRegIndices c4Fun.code).length
            + (if 0 < (savedRegIndices c4Fun.code).length then 2 else 0))) :=
  ⟨by decide, by decide,
    c4_patch_callee_saved_regs c4Fun ⟨⟨EXIT, 0, 0, 0, 0⟩, 16, none⟩ (by decide) (by decide)⟩

section C7Lemmas

private lemma lookupKV_insertIdx {κ α : Type} [DecidableEq κ] (m : List (κ × α)) (k : κ)
    (v : α) (k' : κ) :
    lookupKV (insertIdx m k v) k' = if k = k' then some v else lookupKV m k' := by
  induction m with
  | nil => simp [insertIdx, lookupKV]
  | cons p rest ih =>
    obtain ⟨pk, pv⟩ := p
    by_cases h : pk = k
    · subst h
      by_cases h2 : pk = k' <;> simp [insertIdx, lookupKV, h2]
    · simp only [insertIdx, if_neg h, lookupKV]
      by_cases h2 : pk = k'
      · subst h2
        have hne : ¬ (k = pk) := fun hh => h hh.symm
        simp [hne, lookupKV]
      · simp [h2, ih]

private lemma mem_keys_insertIdx {κ α : Type} [DecidableEq κ] (m : List (κ × α)) (k : κ)
    (v : α) (k' : κ) :
    k' ∈ (insertIdx m k v).map Prod.fst ↔ k' = k ∨ k' ∈ m.map Prod.fst := by
  induction m with
  | nil => simp [insertIdx]
  | cons p rest ih =>
    obtain ⟨pk, pv⟩ := p
    by_cases h : pk = k
    · subst h
      simp [insertIdx]
    · simp only [insertIdx, if_neg h, List.map_cons, List.mem_cons, ih]
      tauto

private lemma mem_keys_of_lookupKV_some {κ α : Type} [DecidableEq κ] {m : List (κ × α)}
    {k : κ} {v : α} (h : lookupKV m k = some v) : k ∈ m.map Prod.fst := by
  induction m with
  | nil => cases h
  | cons p rest ih =>
    obtain ⟨pk, pv⟩ := p
    by_cases hq : pk = k
    · subst hq
      simp
    · simp only [lookupKV, if_neg hq] at h
      simp only [List.map_cons, List.mem_cons]
      exact Or.inr (ih h)

private lemma keysNodup_insertIdx {κ α : Type} [DecidableEq κ] (m : List (κ × α)) (k : κ)
    (v : α) (h : keysNodup m) : keysNodup (insertIdx m k v) := by
  induction m with
  | nil => simp [insertIdx, keysNodup]
  | cons p rest ih =>
    obtain ⟨pk, pv⟩ := p
    unfold keysNodup at h
    simp only [List.map_cons, List.nodup_cons] at h
    obtain ⟨hnm, hrest⟩ := h
    by_cases hk : pk = k
    · subst hk
      unfold keysNodup
      simp only [insertIdx, eq_self_iff_true, if_true, List.map_cons, List.nodup_cons]
      exact ⟨hnm, hrest⟩
    · unfold keysNodup
      simp only [insertIdx, if_neg hk, List.map_cons, List.nodup_cons]
      refine ⟨?_, ih hrest⟩
      rw [mem_keys_insertIdx]
      rintro (hh | hh)
      · exact hk hh
      · exact hnm hh

private lemma lookupKV_foldl_insert (g : Nat → Int) :
    ∀ (m : List (String × Nat)) (tbl0 : List (String × Int)), keysNodup m → ∀ name,
      lookupKV (m.foldl (fun tbl p => insertIdx tbl p.1 (g p.2)) tbl0) name
        = (match lookupKV m name with
           | some v => some (g v)
           | none => lookupKV tbl0 name) := by
  intro m
  induction m with
  | nil =>
    intro tbl0 _ name
    simp [lookupKV]
  | cons p rest ih =>
    intro tbl0 hnd name
    obtain ⟨pk, pv⟩ := p
    unfold keysNodup at hnd
    simp only [List.map_cons, List.nodup_cons] at hnd
    obtain ⟨hnm, hrest⟩ := hnd
    simp only [List.foldl_cons]
    rw [ih (insertIdx tbl0 pk (g pv)) hrest name]
    by_cases h : pk = name
    · subst h
      have hlk : lookupKV rest pk = none := by
        cases hc : lookupKV rest pk with
        | none => rfl
        | some v => exact absurd (mem_keys_of_lookupKV_some hc) hnm
      rw [hlk]
      simp [lookupKV, lookupKV_insertIdx]
    · simp only [lookupKV, if_neg h]
      cases hc : lookupKV rest name with
      | some v => rfl
      | none =>
        rw [lookupKV_insertIdx]
        rw [if_neg h]

end C7Lemmas

section C7Main

private lemma collectFuncOffsets_spec (objects : List ObjectModel) :
    ∀ (l : List (String × (Nat × Nat))) (fs : List Function) (m : List (String × Nat)),
      resolvedFuncs objects l = .ok fs →
      ∃ m', collectFuncOffsets objects l m = .ok m' ∧
        (keysNodup m → keysNodup m') ∧
        (∀ name, lookupKV m' name =
          (match (fs.filter (fun f => f.name == name)).getLast? with
           | some f => some f.global_linked_offset
           | none => lookupKV m name)) := by
  intro l
  induction l with
  | nil =>
    intro fs m h
    simp only [resolvedFuncs, Outcome.ok.injEq] at h
    subst h
    refine ⟨m, rfl, fun hm => hm, ?_⟩
    intro name
    simp [List.filter_nil]
  | cons p rest ih =>
    intro fs m h
    unfold resolvedFuncs at h
    cases ho : objects[p.2.1]? with
    | none =>
      simp only [ho] at h
      exact Outcome.noConfusion h
    | some obj =>
    simp only [ho] at h
    cases hf : obj.functions[p.2.2]? with
    | none =>
      simp only [hf] at h
      exact Outcome.noConfusion h
    | some nf =>
    simp only [hf] at h
    cases hr : resolvedFuncs objects rest with
    | panic =>
      simp only [hr, Outcome.bind] at h
      exact Outcome.noConfusion h
    | err e =>
      simp only [hr, Outcome.bind] at h
      exact Outcome.noConfusion h
    | ok fs' =>
    simp only [hr, Outcome.bind, Outcome.ok.injEq] at h
    subst h
    obtain ⟨m', hcol, hnd, hlook⟩ :=
      ih fs' (insertIdx m nf.2.name nf.2.global_linked_offset) hr
    refine ⟨m', ?_, ?_, ?_⟩
    · unfold collectFuncOffsets
      simp only [ho, hf]
      exact hcol
    · intro hm
      exact hnd (keysNodup_insertIdx m _ _ hm)
    · intro name
      rw [hlook name]
      cases hh : (nf.2.name == name) with
      | true =>
        have hname : nf.2.name = name := by
          exact beq_iff_eq.mp hh
        simp only [List.filter_cons, hh, if_true]
        cases hq : fs'.filter (fun f => f.name == name) with
        | nil =>
          simp only [List.getLast?_singleton]
          rw [lookupKV_insertIdx, if_pos hname]
          rfl
        | cons q qs =>
          rw [List.getLast?_cons_cons]
          rfl
      | false =>
        have hname : ¬ (nf.2.name = name) := by
          intro hx
          rw [hx] at hh
          simp at hh
        simp only [List.filter_cons, hh, Bool.false_eq_true, if_false]
        cases hq : fs'.filter (fun f => f.name == name) with
        | nil =>
          rw [lookupKV_insertIdx, if_neg hname]
        | cons q qs =>
          rfl

end C7Main

/-- C7 (amended).  After `emit_offset_table`, the offset table's keys are the
surviving functions' bare source names (never the `object:name` variants),
and each bare name maps to the `global_linked_offset` of the *last* surviving
function with that name in merged-table order — so when several same-named
non-global functions survive, the earlier ones are shadowed rather than
individually represented. -/
theorem c7_offset_table_bare_names
    (allFunctions : List (String × (Nat × Nat))) (objects : List ObjectModel)
    (fs : List Function) (hRes : resolvedFuncs objects allFunctions = .ok fs) :
    ∃ tbl, emit_offset_table allFunctions objects = .ok tbl ∧
      ∀ name, lookupKV tbl name
        = ((fs.filter (fun f => f.name == name)).getLast?).map
            (fun f => natToI32 f.global_linked_offset) := by
  obtain ⟨m', hcol, hnd, hlook⟩ := collectFuncOffsets_spec objects allFunctions fs [] hRes
  have hnd' : keysNodup m' := hnd (by simp [keysNodup])
  refine ⟨m'.foldl (fun tbl p => insertIdx tbl p.1 (natToI32 p.2)) [], ?_, ?_⟩
  · unfold emit_offset_table
    rw [hcol]
    rfl
  · intro name
    rw [lookupKV_foldl_insert natToI32 m' [] hnd' name]
    rw [hlook name]
    cases hq : (fs.filter (fun f => f.name == name)).getLast? with
    | none => simp [lookupKV]
    | some f => simp

/-- Counterexample for C7 as stated: two same-named non-global functions
`foo` (at offsets 104 and 120 respectively) both survive the link under
their distinct qualified keys `a:foo` and `b:foo`, yet the offset table holds
a single entry `foo ↦ 120` — the first function's offset 104 is not mapped
from its bare name, contradicting the claim for that function. -/
theorem c7_claim_counterexample :
    emit_offset_table [("a:foo", (0, 0)), ("b:foo", (1, 0))] [c7ObjA, c7ObjB]
      = .ok [("foo", 120)] ∧
    c7FunA.name = "foo" ∧
    c7FunA.global_linked_offset = 104 ∧
    lookupKV [("foo", (120 : Int))] "foo" ≠ some (104 : Int) := by
  refine ⟨by decide, by decide, by decide, by decide⟩

/-- Witness for C7 (amended): the two-`foo` link — `foo` resolves to the
last survivor's offset 120, and no qualified key is present. -/
theorem c7_offset_table_bare_names_witness :
    (resolvedFuncs [c7ObjA, c7ObjB] [("a:foo", (0, 0)), ("b:foo", (1, 0))]
      = .ok [c7FunA, c7FunB]) ∧
    (∃ tbl, emit_offset_table [("a:foo", (0, 0)), ("b:foo", (1, 0))] [c7ObjA, c7ObjB]
        = .ok tbl ∧
      ∀ name, lookupKV tbl name
        = (([c7FunA, c7FunB].filter (fun f => f.name == name)).getLast?).map
            (fun f => natToI32 f.global_linked_offset)) :=
  ⟨by decide,
    c7_offset_table_bare_names [("a:foo", (0, 0)), ("b:foo", (1, 0))] [c7ObjA, c7ObjB]
      [c7FunA, c7FunB] (by decide)⟩

section RewriteLemmas

private lemma encodeInsn_length (x : Insn) : (encodeInsn x).length = 8 := rfl

private lemma writeBytes_length {img : List Nat} {off : Nat} {bs : List Nat}
    (h : off + bs.length ≤ img.length) : (writeBytes img off bs).length = img.length := by
  unfold writeBytes
  simp only [List.length_append, List.length_take, List.length_drop]
  omega

private lemma getElem?_writeBytes_lt {img : List Nat} {off : Nat} {bs : List Nat} {n : Nat}
    (hn : n < off) (h : off + bs.length ≤ img.length) :
    (writeBytes img off bs)[n]? = img[n]? := by
  unfold writeBytes
  rw [List.append_assoc]
  rw [List.getElem?_append_left (by
    simp only [List.length_take]
    omega)]
  rw [List.getElem?_take_of_lt hn]

private lemma getElem?_writeBytes_ge {img : List Nat} {off : Nat} {bs : List Nat} {n : Nat}
    (hn : off + bs.length ≤ n) (h : off + bs.length ≤ img.length) :
    (writeBytes img off bs)[n]? = img[n]? := by
  unfold writeBytes
  rw [List.append_assoc]
  have h1 : (img.take off).length = off := by
    simp only [List.length_take]
    omega
  rw [List.getElem?_append_right (by omega)]
  rw [h1]
  rw [List.getElem?_append_right (by omega)]
  rw [List.getElem?_drop]
  congr 1
  omega

private lemma getElem?_writeBytes_in {img : List Nat} {off : Nat} {bs : List Nat} {n : Nat}
    (h1 : off ≤ n) (h2 : n < off + bs.length) (h : off + bs.length ≤ img.length) :
    (writeBytes img off bs)[n]? = bs[n - off]? := by
  unfold writeBytes
  rw [List.append_assoc]
  have hto : (img.take off).length = off := by
    simp only [List.length_take]
    omega
  rw [List.getElem?_append_right (by omega)]
  rw [hto]
  rw [List.getElem?_append_left (by omega)]

private lemma sliceBytes_getElem? (img : List Nat) (off len j : Nat) :
    (sliceBytes img off len)[j]? = if j < len then img[off + j]? else none := by
  unfold sliceBytes
  by_cases hj : j < len
  · rw [if_pos hj, List.getElem?_take_of_lt hj, List.getElem?_drop]
  · rw [if_neg hj]
    apply List.getElem?_eq_none_iff.mpr
    have := List.length_take len (img.drop off)
    omega

private lemma sliceBytes_congr {imgA imgB : List Nat} {off len : Nat}
    (h : ∀ n, off ≤ n → n < off + len → imgA[n]? = imgB[n]?) :
    sliceBytes imgA off len = sliceBytes imgB off len := by
  apply List.ext_getElem?_iff.mpr
  intro j
  rw [sliceBytes_getElem?, sliceBytes_getElem?]
  by_cases hj : j < len
  · rw [if_pos hj, if_pos hj]
    exact h (off + j) (by omega) (by omega)
  · rw [if_neg hj, if_neg hj]

private lemma sliceBytes_writeBytes (img : List Nat) (off : Nat) (bs : List Nat)
    (h : off + bs.length ≤ img.length) :
    sliceBytes (writeBytes img off bs) off bs.length = bs := by
  apply List.ext_getElem?_iff.mpr
  intro j
  rw [sliceBytes_getElem?]
  by_cases hj : j < bs.length
  · rw [if_pos hj]
    rw [getElem?_writeBytes_in (by omega) (by omega) h]
    congr 1
    omega
  · rw [if_neg hj]
    exact (List.getElem?_eq_none_iff.mpr (by omega)).symm

private lemma getElem?_of_slice_eq {imgA imgB : List Nat} {off len n : Nat}
    (h : sliceBytes imgA off len = sliceBytes imgB off len)
    (h1 : off ≤ n) (h2 : n < off + len) : imgA[n]? = imgB[n]? := by
  have := congrArg (fun l => l[n - off]?) h
  simp only [sliceBytes_getElem?] at this
  rw [if_pos (by omega), if_pos (by omega)] at this
  have he : off + (n - off) = n := by omega
  rw [he] at this
  exact this

private lemma option_all_some {α : Type} (f : α → Bool) {x : Option α} {t : α}
    (hx : x = some t) (h : x.all f = true) : f t = true := by
  subst hx
  simpa [Option.all] using h

end RewriteLemmas

section RewriteStep

private lemma rewriteInsnStep_spec (funcOffs : List ((Nat × Nat) × Nat)) (f : Function)
    (i : Nat) (a : AnnotatedInsn) (img : List Nat)
    (hb : f.global_linked_offset + i * 8 + 8 ≤ img.length)
    (ht : a.call_target_function.all (fun t => (lookupKV funcOffs t).isSome) = true) :
    (overflowInsn funcOffs f i a = true →
      (rewriteInsnStep funcOffs f i a img).isErr = true) ∧
    (overflowInsn funcOffs f i a = false →
      ∃ img', rewriteInsnStep funcOffs f i a img = .ok img' ∧
        img'.length = img.length ∧
        (∀ n, n < f.global_linked_offset + i * 8 ∨ f.global_linked_offset + i * 8 + 8 ≤ n →
          img'[n]? = img[n]?) ∧
        sliceBytes img' (f.global_linked_offset + i * 8) 8
          = (slotBytesAfter funcOffs f i a).getD
              (sliceBytes img (f.global_linked_offset + i * 8) 8)) := by
  cases hct : a.call_target_function with
  | none =>
    refine ⟨?_, ?_⟩
    · intro hov
      exfalso
      unfold overflowInsn at hov
      rw [hct] at hov
      cases hov
    · intro _
      by_cases hex : a.insn.opc = EXIT
      · refine ⟨writeBytes img (f.global_linked_offset + i * 8) (encodeInsn retJAInsn),
          ?_, ?_, ?_, ?_⟩
        · unfold rewriteInsnStep
          simp only [hct, Outcome.bind, hex, if_pos, writeChecked, encodeInsn_length]
          rw [if_pos (by omega)]
        · exact writeBytes_length (by rw [encodeInsn_length]; omega)
        · intro n hn
          rcases hn with hn | hn
          · exact getElem?_writeBytes_lt hn (by rw [encodeInsn_length]; omega)
          · exact getElem?_writeBytes_ge (by rw [encodeInsn_length]; omega)
              (by rw [encodeInsn_length]; omega)
        · unfold slotBytesAfter
          rw [if_pos hex]
          have := sliceBytes_writeBytes img (f.global_linked_offset + i * 8)
            (encodeInsn retJAInsn) (by rw [encodeInsn_length]; omega)
          rw [encodeInsn_length] at this
          rw [this]
          rfl
      · refine ⟨img, ?_, rfl, fun n _ => rfl, ?_⟩
        · unfold rewriteInsnStep
          simp only [hct, Outcome.bind, hex, if_false]
        · unfold slotBytesAfter
          rw [if_neg hex]
          rw [hct]
          rfl
  | some t =>
    have hsome : (lookupKV funcOffs t).isSome = true :=
      option_all_some (fun u => (lookupKV funcOffs u).isSome) hct ht
    obtain ⟨toff, htoff⟩ := Option.isSome_iff_exists.mp hsome
    by_cases hfit : i16fits (callDiff toff (f.global_linked_offset + i * 8)) = true
    · have hov : overflowInsn funcOffs f i a = false := by
        simp [overflowInsn, hct, htoff, hfit]
      refine ⟨?_, ?_⟩
      · intro hov'
        rw [hov] at hov'
        cases hov'
      · intro _
        have hwl : (encodeInsn (callJAInsn f.stack_usage
            (callDiff toff (f.global_linked_offset + i * 8)))).length = 8 := encodeInsn_length _
        by_cases hex : a.insn.opc = EXIT
        · refine ⟨writeBytes
            (writeBytes img (f.global_linked_offset + i * 8)
              (encodeInsn (callJAInsn f.stack_usage
                (callDiff toff (f.global_linked_offset + i * 8)))))
            (f.global_linked_offset + i * 8) (encodeInsn retJAInsn), ?_, ?_, ?_, ?_⟩
          · unfold rewriteInsnStep
            simp only [hct, htoff, hfit, if_true, writeChecked, hwl, encodeInsn_length]
            rw [if_pos (by omega)]
            simp only [Outcome.bind, hex, if_pos, writeChecked, encodeInsn_length]
            rw [if_pos (by
              rw [writeBytes_length (by rw [hwl]; omega)]
              omega)]
          · rw [writeBytes_length, writeBytes_length]
            · rw [hwl]
              omega
            · rw [encodeInsn_length, writeBytes_length (by rw [hwl]; omega)]
              omega
          · intro n hn
            have hl1 : (writeBytes img (f.global_linked_offset + i * 8)
                (encodeInsn (callJAInsn f.stack_usage
                  (callDiff toff (f.global_linked_offset + i * 8))))).length = img.length :=
              writeBytes_length (by rw [hwl]; omega)
            rcases hn with hn | hn
            · rw [getElem?_writeBytes_lt hn (by rw [encodeInsn_length, hl1]; omega)]
              exact getElem?_writeBytes_lt hn (by rw [hwl]; omega)
            · rw [getElem?_writeBytes_ge (by rw [encodeInsn_length]; omega)
                (by rw [encodeInsn_length, hl1]; omega)]
              exact getElem?_writeBytes_ge (by rw [hwl]; omega) (by rw [hwl]; omega)
          · unfold slotBytesAfter
            rw [if_pos hex]
            have hl1 : (writeBytes img (f.global_linked_offset + i * 8)
                (encodeInsn (callJAInsn f.stack_usage
                  (callDiff toff (f.global_linked_offset + i * 8))))).length = img.length :=
              writeBytes_length (by rw [hwl]; omega)
            have := sliceBytes_writeBytes
              (writeBytes img (f.global_linked_offset + i * 8)
                (encodeInsn (callJAInsn f.stack_usage
                  (callDiff toff (f.global_linked_offset + i * 8)))))
              (f.global_linked_offset + i * 8) (encodeInsn retJAInsn)
              (by rw [encodeInsn_length, hl1]; omega)
            rw [encodeInsn_length] at this
            rw [this]
            rfl
        · refine ⟨writeBytes img (f.global_linked_offset + i * 8)
            (encodeInsn (callJAInsn f.stack_usage
              (callDiff toff (f.global_linked_offset + i * 8)))), ?_, ?_, ?_, ?_⟩
          · unfold rewriteInsnStep
            simp only [hct, htoff, hfit, if_true, writeChecked, hwl]
            rw [if_pos (by omega)]
            simp only [Outcome.bind, hex, if_false]
          · exact writeBytes_length (by rw [hwl]; omega)
          · intro n hn
            rcases hn with hn | hn
            · exact getElem?_writeBytes_lt hn (by rw [hwl]; omega)
            · exact getElem?_writeBytes_ge (by rw [hwl]; omega) (by rw [hwl]; omega)
          · unfold slotBytesAfter
            rw [if_neg hex]
            simp only [hct, htoff]
            have := sliceBytes_writeBytes img (f.global_linked_offset + i * 8)
              (encodeInsn (callJAInsn f.stack_usage
                (callDiff toff (f.global_linked_offset + i * 8))))
              (by rw [hwl]; omega)
            rw [hwl] at this
            rw [this]
            rfl
    · have hov : overflowInsn funcOffs f i a = true := by
        simp only [Bool.not_eq_true'] at hfit
        simp [overflowInsn, hct, htoff, hfit]
      refine ⟨?_, ?_⟩
      · intro _
        unfold rewriteInsnStep
        simp only [hct, htoff]
        rw [if_neg (by
          intro hc
          exact hfit hc)]
        rfl
      · intro hov'
        rw [hov] at hov'
        cases hov'
end RewriteStep

section RewriteFunc

private lemma rewriteFuncFrom_spec (funcOffs : List ((Nat × Nat) × Nat)) (f : Function) :
    ∀ (rest : List AnnotatedInsn) (i : Nat) (img : List Nat),
      f.global_linked_offset + (i + rest.length) * 8 ≤ img.length →
      (∀ a ∈ rest, a.call_target_function.all
        (fun t => (lookupKV funcOffs t).isSome) = true) →
      (overflowCode funcOffs f i rest = true →
        (rewriteFuncFrom funcOffs f i rest img).isErr = true) ∧
      (overflowCode funcOffs f i rest = false →
        ∃ img', rewriteFuncFrom funcOffs f i rest img = .ok img' ∧
          img'.length = img.length ∧
          (∀ n, n < f.global_linked_offset + i * 8 ∨
              f.global_linked_offset + (i + rest.length) * 8 ≤ n →
            img'[n]? = img[n]?) ∧
          (∀ j a, rest[j]? = some a →
            sliceBytes img' (f.global_linked_offset + (i + j) * 8) 8
              = (slotBytesAfter funcOffs f (i + j) a).getD
                  (sliceBytes img (f.global_linked_offset + (i + j) * 8) 8))) := by
  intro rest
  induction rest with
  | nil =>
    intro i img hb ht
    refine ⟨?_, ?_⟩
    · intro hov
      cases hov
    · intro _
      refine ⟨img, rfl, rfl, fun n _ => rfl, ?_⟩
      intro j a hj
      cases hj
  | cons a rest' ih =>
    intro i img hb ht
    have hba : f.global_linked_offset + i * 8 + 8 ≤ img.length := by
      simp only [List.length_cons] at hb
      have : f.global_linked_offset + (i + (rest'.length + 1)) * 8 ≤ img.length := hb
      omega
    have hta : a.call_target_function.all (fun t => (lookupKV funcOffs t).isSome) = true :=
      ht a (List.mem_cons_self _ _)
    obtain ⟨hstep_err, hstep_ok⟩ := rewriteInsnStep_spec funcOffs f i a img hba hta
    refine ⟨?_, ?_⟩
    · intro hov
      unfold overflowCode at hov
      rw [Bool.or_eq_true] at hov
      cases hoa : overflowInsn funcOffs f i a with
      | true =>
        have := hstep_err hoa
        unfold rewriteFuncFrom
        cases hs : rewriteInsnStep funcOffs f i a img with
        | panic =>
          rw [hs] at this
          cases this
        | err e => rfl
        | ok img1 =>
          rw [hs] at this
          cases this
      | false =>
        have hov' : overflowCode funcOffs f (i + 1) rest' = true := by
          rcases hov with hov | hov
          · rw [hoa] at hov
            cases hov
          · exact hov
        obtain ⟨img1, hs, hlen1, hframe1, _⟩ := hstep_ok hoa
        unfold rewriteFuncFrom
        rw [hs]
        simp only [Outcome.bind]
        have hb1 : f.global_linked_offset + ((i + 1) + rest'.length) * 8 ≤ img1.length := by
          rw [hlen1]
          simp only [List.length_cons] at hb
          omega
        have ht1 : ∀ b ∈ rest', b.call_target_function.all
            (fun t => (lookupKV funcOffs t).isSome) = true :=
          fun b hbm => ht b (List.mem_cons_of_mem _ hbm)
        exact (ih (i + 1) img1 hb1 ht1).1 hov'
    · intro hov
      unfold overflowCode at hov
      rw [Bool.or_eq_false_iff] at hov
      obtain ⟨hoa, hor⟩ := hov
      obtain ⟨img1, hs, hlen1, hframe1, hslot1⟩ := hstep_ok hoa
      have hb1 : f.global_linked_offset + ((i + 1) + rest'.length) * 8 ≤ img1.length := by
        rw [hlen1]
        simp only [List.length_cons] at hb
        omega
      have ht1 : ∀ b ∈ rest', b.call_target_function.all
          (fun t => (lookupKV funcOffs t).isSome) = true :=
        fun b hbm => ht b (List.mem_cons_of_mem _ hbm)
      obtain ⟨img', hrec, hlen', hframe', hslot'⟩ := (ih (i + 1) img1 hb1 ht1).2 hor
      refine ⟨img', ?_, ?_, ?_, ?_⟩
      · unfold rewriteFuncFrom
        rw [hs]
        simp only [Outcome.bind]
        exact hrec
      · rw [hlen', hlen1]
      · intro n hn
        have h1 : img'[n]? = img1[n]? := by
          apply hframe'
          rcases hn with hn | hn
          · left
            omega
          · right
            simp only [List.length_cons] at hn ⊢
            omega
        rw [h1]
        apply hframe1
        rcases hn with hn | hn
        · left
          exact hn
        · right
          simp only [List.length_cons] at hn
          omega
      · intro j b hj
        cases j with
        | zero =>
          simp only [List.getElem?_cons_zero, Option.some.injEq] at hj
          subst hj
          have hadd : i + 0 = i := by omega
          rw [hadd]
          have hs1 : sliceBytes img' (f.global_linked_offset + i * 8) 8
              = sliceBytes img1 (f.global_linked_offset + i * 8) 8 := by
            apply sliceBytes_congr
            intro n hn1 hn2
            apply hframe'
            left
            omega
          rw [hs1]
          exact hslot1
        | succ j' =>
          simp only [List.getElem?_cons_succ] at hj
          have hadd : i + (j' + 1) = (i + 1) + j' := by omega
          rw [hadd]
          have := hslot' j' b hj
          rw [this]
          congr 1
          apply sliceBytes_congr
          intro n hn1 hn2
          apply hframe1
          right
          omega

end RewriteFunc

section RewriteAllSpec

private lemma rewriteAll_spec (funcOffs : List ((Nat × Nat) × Nat)) :
    ∀ (survivors : List ((Nat × Nat) × Function)) (img : List Nat),
      (∀ p ∈ survivors, p.2.global_linked_offset + p.2.code.length * 8 ≤ img.length) →
      List.Pairwise rangesDisjoint survivors →
      (∀ p ∈ survivors, ∀ a ∈ p.2.code, a.call_target_function.all
        (fun t => (lookupKV funcOffs t).isSome) = true) →
      (overflowSurvivors funcOffs survivors = true →
        (rewriteAll funcOffs survivors img).isErr = true) ∧
      (overflowSurvivors funcOffs survivors = false →
        ∃ img', rewriteAll funcOffs survivors img = .ok img' ∧
          img'.length = img.length ∧
          (∀ n, (∀ p ∈ survivors, n < p.2.global_linked_offset ∨
              p.2.global_linked_offset + p.2.code.length * 8 ≤ n) → img'[n]? = img[n]?) ∧
          (∀ p ∈ survivors, ∀ j a, p.2.code[j]? = some a →
            sliceBytes img' (p.2.global_linked_offset + j * 8) 8
              = (slotBytesAfter funcOffs p.2 j a).getD
                  (sliceBytes img (p.2.global_linked_offset + j * 8) 8))) := by
  intro survivors
  induction survivors with
  | nil =>
    intro img _ _ _
    refine ⟨?_, ?_⟩
    · intro hov
      cases hov
    · intro _
      refine ⟨img, rfl, rfl, fun n _ => rfl, ?_⟩
      intro p hp
      cases hp
  | cons p rest ih =>
    intro img hb hd ht
    obtain ⟨k, f⟩ := p
    rw [List.pairwise_cons] at hd
    obtain ⟨hdh, hdr⟩ := hd
    have hbf : f.global_linked_offset + (0 + f.code.length) * 8 ≤ img.length := by
      have := hb (k, f) (List.mem_cons_self _ _)
      simp only at this
      omega
    have htf : ∀ a ∈ f.code, a.call_target_function.all
        (fun t => (lookupKV funcOffs t).isSome) = true :=
      fun a ha => ht (k, f) (List.mem_cons_self _ _) a ha
    obtain ⟨hferr, hfok⟩ := rewriteFuncFrom_spec funcOffs f f.code 0 img hbf htf
    refine ⟨?_, ?_⟩
    · intro hov
      unfold overflowSurvivors at hov
      rw [Bool.or_eq_true] at hov
      cases hoc : overflowCode funcOffs f 0 f.code with
      | true =>
        have := hferr hoc
        unfold rewriteAll
        cases hs : rewriteFuncFrom funcOffs f 0 f.code img with
        | panic =>
          rw [hs] at this
          cases this
        | err e => rfl
        | ok img1 =>
          rw [hs] at this
          cases this
      | false =>
        have hov' : overflowSurvivors funcOffs rest = true := by
          rcases hov with hov | hov
          · rw [hoc] at hov
            cases hov
          · exact hov
        obtain ⟨img1, hs, hlen1, _, _⟩ := hfok hoc
        unfold rewriteAll
        rw [hs]
        simp only [Outcome.bind]
        have hb1 : ∀ q ∈ rest, q.2.global_linked_offset + q.2.code.length * 8
            ≤ img1.length := by
          intro q hq
          rw [hlen1]
          exact hb q (List.mem_cons_of_mem _ hq)
        have ht1 : ∀ q ∈ rest, ∀ a ∈ q.2.code, a.call_target_function.all
            (fun t => (lookupKV funcOffs t).isSome) = true :=
          fun q hq => ht q (List.mem_cons_of_mem _ hq)
        exact (ih img1 hb1 hdr ht1).1 hov'
    · intro hov
      unfold overflowSurvivors at hov
      rw [Bool.or_eq_false_iff] at hov
      obtain ⟨hoc, hor⟩ := hov
      obtain ⟨img1, hs, hlen1, hframe1, hslot1⟩ := hfok hoc
      have hb1 : ∀ q ∈ rest, q.2.global_linked_offset + q.2.code.length * 8
          ≤ img1.length := by
        intro q hq
        rw [hlen1]
        exact hb q (List.mem_cons_of_mem _ hq)
      have ht1 : ∀ q ∈ rest, ∀ a ∈ q.2.code, a.call_target_function.all
          (fun t => (lookupKV funcOffs t).isSome) = true :=
        fun q hq => ht q (List.mem_cons_of_mem _ hq)
      obtain ⟨img', hrec, hlen', hframe', hslot'⟩ := (ih img1 hb1 hdr ht1).2 hor
      refine ⟨img', ?_, ?_, ?_, ?_⟩
      · unfold rewriteAll
        rw [hs]
        simp only [Outcome.bind]
        exact hrec
      · rw [hlen', hlen1]
      · intro n hn
        have h1 : img'[n]? = img1[n]? := by
          apply hframe'
          intro q hq
          exact hn q (List.mem_cons_of_mem _ hq)
        rw [h1]
        apply hframe1
        have := hn (k, f) (List.mem_cons_self _ _)
        simp only at this
        rcases this with hh | hh
        · left
          omega
        · right
          omega
      · intro q hq j a hj
        have hjlen : j < q.2.code.length := getElem?_lt_of_eq_some hj
        rcases List.mem_cons.mp hq with hq1 | hq2
        · subst hq1
          simp only
          have hjlen' : j < f.code.length := hjlen
          have hfj := hslot1 j a hj
          simp only [Nat.zero_add] at hfj
          have hs1 : sliceBytes img' (f.global_linked_offset + j * 8) 8
              = sliceBytes img1 (f.global_linked_offset + j * 8) 8 := by
            apply sliceBytes_congr
            intro n hn1 hn2
            apply hframe'
            intro q' hq'
            have hdq : f.global_linked_offset + f.code.length * 8
                  ≤ q'.2.global_linked_offset ∨
                q'.2.global_linked_offset + q'.2.code.length * 8
                  ≤ f.global_linked_offset := hdh q' hq'
            rcases hdq with hdq | hdq
            · left
              omega
            · right
              omega
          rw [hs1]
          exact hfj
        · have hq' := hslot' q hq2 j a hj
          rw [hq']
          congr 1
          apply sliceBytes_congr
          intro n hn1 hn2
          apply hframe1
          have hdq : f.global_linked_offset + f.code.length * 8
                ≤ q.2.global_linked_offset ∨
              q.2.global_linked_offset + q.2.code.length * 8
                ≤ f.global_linked_offset := hdh q hq2
          rcases hdq with hdq | hdq
          · right
            omega
          · left
            omega

end RewriteAllSpec

/-- C1.  For laid-out surviving functions (slots inside the image, pairwise
disjoint ranges, every call target present in `func_to_offset`),
`rewrite_image_call_return` never panics; it returns a fatal error exactly
when some instruction's displacement
`diff = (target.global_linked_offset − this_offset)/8 − 1` does not fit in
`i16`; and on success every instruction with a resolved call target (other
than an `EXIT`) has its 8 bytes overwritten with
`JA dst=0, src=2, off=diff, imm=−(caller stack_usage + 8)`, while every
`EXIT` instruction's 8 bytes become `JA dst=0, src=1, off=0, imm=0`. -/
theorem c1_rewrite_image_call_return
    (survivors : List ((Nat × Nat) × Function)) (img : List Nat)
    (Hb : ∀ p ∈ survivors, p.2.global_linked_offset + p.2.code.length * 8 ≤ img.length)
    (Hd : List.Pairwise rangesDisjoint survivors)
    (Ht : ∀ p ∈ survivors, ∀ a ∈ p.2.code, a.call_target_function.all
      (fun t => (lookupKV (funcOffsOf survivors) t).isSome) = true) :
    rewrite_image_call_return survivors img ≠ Outcome.panic ∧
    ((rewrite_image_call_return survivors img).isErr = true ↔
      overflowSurvivors (funcOffsOf survivors) survivors = true) ∧
    (∀ img', rewrite_image_call_return survivors img = .ok img' →
      ∀ p ∈ survivors, ∀ j a, p.2.code[j]? = some a →
        (∀ t toff, a.call_target_function = some t →
          lookupKV (funcOffsOf survivors) t = some toff →
          a.insn.opc ≠ EXIT →
          sliceBytes img' (p.2.global_linked_offset + j * 8) 8
            = encodeInsn (callJAInsn p.2.stack_usage
                (callDiff toff (p.2.global_linked_offset + j * 8)))) ∧
        (a.insn.opc = EXIT →
          sliceBytes img' (p.2.global_linked_offset + j * 8) 8 = encodeInsn retJAInsn)) := by
  obtain ⟨herr, hok⟩ := rewriteAll_spec (funcOffsOf survivors) survivors img Hb Hd Ht
  have hunf : rewrite_image_call_return survivors img
      = rewriteAll (funcOffsOf survivors) survivors img := rfl
  refine ⟨?_, ?_, ?_⟩
  · cases hov : overflowSurvivors (funcOffsOf survivors) survivors with
    | true =>
      have := herr hov
      rw [hunf]
      intro hc
      rw [hc] at this
      cases this
    | false =>
      obtain ⟨img', heq, _⟩ := hok hov
      rw [hunf, heq]
      intro hc
      cases hc
  · constructor
    · intro hie
      cases hov : overflowSurvivors (funcOffsOf survivors) survivors with
      | true => rfl
      | false =>
        obtain ⟨img', heq, _⟩ := hok hov
        rw [hunf, heq] at hie
        cases hie
    · intro hov
      rw [hunf]
      exact herr hov
  · intro img' heq p hp j a hj
    cases hov : overflowSurvivors (funcOffsOf survivors) survivors with
    | true =>
      exfalso
      have := herr hov
      rw [hunf] at heq
      rw [heq] at this
      cases this
    | false =>
      obtain ⟨img'0, heq0, _, _, hslots⟩ := hok hov
      rw [hunf, heq0] at heq
      have himg : img'0 = img' := by
        cases heq
        rfl
      subst himg
      have hslot := hslots p hp j a hj
      refine ⟨?_, ?_⟩
      · intro t toff hct htoff hex
        rw [hslot]
        unfold slotBytesAfter
        rw [if_neg hex]
        simp only [hct, htoff]
        rfl
      · intro hex
        rw [hslot]
        unfold slotBytesAfter
        rw [if_pos hex]
        rfl

/-- C8.  Given the same layout hypotheses, a successful
`rewrite_image_call_return` preserves the code image's length, and every byte
outside the 8-byte slots it rewrites — the slots of instructions with a
resolved call target or an `EXIT` opcode — is unchanged; in particular the
trampoline prefix and all other instruction bytes are untouched. -/
theorem c8_rewrite_image_frame
    (survivors : List ((Nat × Nat) × Function)) (img img' : List Nat)
    (Hb : ∀ p ∈ survivors, p.2.global_linked_offset + p.2.code.length * 8 ≤ img.length)
    (Hd : List.Pairwise rangesDisjoint survivors)
    (Ht : ∀ p ∈ survivors, ∀ a ∈ p.2.code, a.call_target_function.all
      (fun t => (lookupKV (funcOffsOf survivors) t).isSome) = true)
    (Hok : rewrite_image_call_return survivors img = .ok img') :
    img'.length = img.length ∧
    ∀ n : Nat,
      (∀ p ∈ survivors, ∀ j a, p.2.code[j]? = some a → rewritesSlot a = true →
        n < p.2.global_linked_offset + j * 8 ∨ p.2.global_linked_offset + j * 8 + 8 ≤ n) →
      img'[n]? = img[n]? := by
  obtain ⟨herr, hok⟩ := rewriteAll_spec (funcOffsOf survivors) survivors img Hb Hd Ht
  have hunf : rewrite_image_call_return survivors img
      = rewriteAll (funcOffsOf survivors) survivors img := rfl
  cases hov : overflowSurvivors (funcOffsOf survivors) survivors with
  | true =>
    exfalso
    have := herr hov
    rw [hunf] at Hok
    rw [Hok] at this
    cases this
  | false =>
    obtain ⟨img'0, heq0, hlen, hframe, hslots⟩ := hok hov
    rw [hunf, heq0] at Hok
    have himg : img'0 = img' := by
      cases Hok
      rfl
    subst himg
    refine ⟨hlen, ?_⟩
    intro n hn
    by_cases hin : ∃ p, p ∈ survivors ∧ p.2.global_linked_offset ≤ n ∧
        n < p.2.global_linked_offset + p.2.code.length * 8
    · obtain ⟨p, hp, hn1, hn2⟩ := hin
      set g := p.2.global_linked_offset with hg
      have hjlt : (n - g) / 8 < p.2.code.length := by omega
      obtain ⟨a, hja⟩ : ∃ a, p.2.code[(n - g) / 8]? = some a :=
        ⟨p.2.code[(n - g) / 8], List.getElem?_eq_getElem hjlt⟩
      have hslotn1 : g + ((n - g) / 8) * 8 ≤ n := by omega
      have hslotn2 : n < g + ((n - g) / 8) * 8 + 8 := by omega
      cases hrs : rewritesSlot a with
      | true =>
        have := hn p hp ((n - g) / 8) a hja hrs
        rw [← hg] at this
        omega
      | false =>
        have hnone : slotBytesAfter (funcOffsOf survivors) p.2 ((n - g) / 8) a = none := by
          unfold rewritesSlot at hrs
          rw [Bool.or_eq_false_iff] at hrs
          obtain ⟨hct, hex⟩ := hrs
          have hctn : a.call_target_function = none :=
            Option.not_isSome_iff_eq_none.mp (by
              rw [hct]
              exact Bool.false_ne_true)
          have hexn : a.insn.opc ≠ EXIT := by
            intro hc
            rw [hc] at hex
            simp at hex
          unfold slotBytesAfter
          rw [if_neg hexn, hctn]
        have hslot := hslots p hp ((n - g) / 8) a hja
        rw [hnone] at hslot
        simp only [Option.getD] at hslot
        exact getElem?_of_slice_eq hslot hslotn1 hslotn2
    · apply hframe
      intro p hp
      by_cases h1 : n < p.2.global_linked_offset
      · left
        exact h1
      · right
        by_contra h2
        exact hin ⟨p, hp, by omega, by omega⟩

/-- Witness for C1: a two-function layout in a 128-byte image — the call at
offset 104 targets offset 120 (diff 1, in range), so the phase succeeds and
the characterization applies. -/
theorem c1_rewrite_image_call_return_witness :
    (∀ p ∈ [((0, 0), w1Fun), ((0, 1), w2Fun)],
      p.2.global_linked_offset + p.2.code.length * 8 ≤ (List.replicate 128 0).length) ∧
    List.Pairwise rangesDisjoint [((0, 0), w1Fun), ((0, 1), w2Fun)] ∧
    (∀ p ∈ [((0, 0), w1Fun), ((0, 1), w2Fun)], ∀ a ∈ p.2.code, a.call_target_function.all
      (fun t => (lookupKV (funcOffsOf [((0, 0), w1Fun), ((0, 1), w2Fun)]) t).isSome)
        = true) ∧
    (rewrite_image_call_return [((0, 0), w1Fun), ((0, 1), w2Fun)] (List.replicate 128 0)
        ≠ Outcome.panic ∧
      ((rewrite_image_call_return [((0, 0), w1Fun), ((0, 1), w2Fun)]
            (List.replicate 128 0)).isErr = true ↔
        overflowSurvivors (funcOffsOf [((0, 0), w1Fun), ((0, 1), w2Fun)])
          [((0, 0), w1Fun), ((0, 1), w2Fun)] = true) ∧
      (∀ img', rewrite_image_call_return [((0, 0), w1Fun), ((0, 1), w2Fun)]
            (List.replicate 128 0) = .ok img' →
        ∀ p ∈ [((0, 0), w1Fun), ((0, 1), w2Fun)], ∀ j a, p.2.code[j]? = some a →
          (∀ t toff, a.call_target_function = some t →
            lookupKV (funcOffsOf [((0, 0), w1Fun), ((0, 1), w2Fun)]) t = some toff →
            a.insn.opc ≠ EXIT →
            sliceBytes img' (p.2.global_linked_offset + j * 8) 8
              = encodeInsn (callJAInsn p.2.stack_usage
                  (callDiff toff (p.2.global_linked_offset + j * 8)))) ∧
          (a.insn.opc = EXIT →
            sliceBytes img' (p.2.global_linked_offset + j * 8) 8
              = encodeInsn retJAInsn))) :=
  ⟨by decide, by decide, by decide,
    c1_rewrite_image_call_return [((0, 0), w1Fun), ((0, 1), w2Fun)]
      (List.replicate 128 0) (by decide) (by decide) (by decide)⟩

/-- Witness for C8: on the same layout the phase succeeds with a
length-128 image whose bytes outside the three rewritten slots are
untouched. -/
theorem c8_rewrite_image_frame_witness :
    (∀ p ∈ [((0, 0), w1Fun), ((0, 1), w2Fun)],
      p.2.global_linked_offset + p.2.code.length * 8 ≤ (List.replicate 128 0).length) ∧
    List.Pairwise rangesDisjoint [((0, 0), w1Fun), ((0, 1), w2Fun)] ∧
    (∀ p ∈ [((0, 0), w1Fun), ((0, 1), w2Fun)], ∀ a ∈ p.2.code, a.call_target_function.all
      (fun t => (lookupKV (funcOffsOf [((0, 0), w1Fun), ((0, 1), w2Fun)]) t).isSome)
        = true) ∧
    (rewrite_image_call_return [((0, 0), w1Fun), ((0, 1), w2Fun)] (List.replicate 128 0)
      = .ok (List.replicate 104 0
          ++ [5, 32, 1, 0, 232, 255, 255, 255, 5, 16, 0, 0, 0, 0, 0, 0,
              5, 16, 0, 0, 0, 0, 0, 0])) ∧
    ((List.replicate 104 0
        ++ [5, 32, 1, 0, 232, 255, 255, 255, 5, 16, 0, 0, 0, 0, 0, 0,
            5, 16, 0, 0, 0, 0, 0, 0]).length = (List.replicate 128 0).length ∧
      ∀ n : Nat,
        (∀ p ∈ [((0, 0), w1Fun), ((0, 1), w2Fun)], ∀ j a, p.2.code[j]? = some a →
          rewritesSlot a = true →
          n < p.2.global_linked_offset + j * 8 ∨
            p.2.global_linked_offset + j * 8 + 8 ≤ n) →
        (List.replicate 104 0
          ++ [5, 32, 1, 0, 232, 255, 255, 255, 5, 16, 0, 0, 0, 0, 0, 0,
              5, 16, 0, 0, 0, 0, 0, 0])[n]? = (List.replicate 128 0)[n]?) :=
  ⟨by decide, by decide, by decide, by decide,
    c8_rewrite_image_frame [((0, 0), w1Fun), ((0, 1), w2Fun)] (List.replicate 128 0)
      (List.replicate 104 0
        ++ [5, 32, 1, 0, 232, 255, 255, 255, 5, 16, 0, 0, 0, 0, 0, 0,
            5, 16, 0, 0, 0, 0, 0, 0])
      (by decide) (by decide) (by decide) (by decide)⟩

